import Mathlib

/-!
Verification development for the multiDDS training tasks
(`fairseq/tasks/multilingual_translation.py` and `fairseq/tasks/bt_translation.py`).

The Python code is shallowly embedded: pure computations become Lean
functions, Python exceptions become `Except PyErr`, Python `float` values
are modelled as exact rationals (`ℚ`; every numeric literal appearing in
the claims is exactly representable, and the schedule arithmetic uses only
field operations), and Python dicts become association lists.  External
collaborators (tensors, models, the optimizer, file I/O) are abstracted:
file existence is a predicate `String → Bool` over file names, and a batch
is abstracted by its length together with the loss / sample-size / logging
triple the external criterion returns for it.
-/

set_option maxHeartbeats 1000000

/- The rational operations are `@[irreducible]` in Batteries, which blocks
kernel evaluation of closed goals by `decide`; restore the default
reducibility (a hint to the elaborator only — the kernel is unaffected). -/
set_option allowUnsafeReducibility true
attribute [semireducible] Rat.add Rat.mul Rat.sub Rat.inv Rat.ofScientific

/-- Python exception classes raised by the embedded code. -/
inductive PyErr where
  | keyError
  | typeError
  | valueError
  | assertionError
  | fileNotFoundError
  | zeroDivisionError
  | indexError
  deriving DecidableEq, Repr

/-- Split a character list at every occurrence of the separator, keeping
empty segments (the behavior of Python `str.split` with an explicit
single-character separator). -/
def splitOnChar (c : Char) : List Char → List (List Char)
  | [] => [[]]
  | a :: rest =>
      let r := splitOnChar c rest
      if a = c then [] :: r else (a :: r.headD []) :: r.tail

/-- Python `s.split(sep)` for a single-character separator. -/
def pySplit (sep : Char) (s : String) : List String :=
  (splitOnChar sep s.toList).map (fun cs => ⟨cs⟩)

/-- Python `s.startswith(pre)`. -/
def pyStartswith (s pre : String) : Bool :=
  pre.toList.isPrefixOf s.toList

/-- Lexicographic order on character lists by code point (the order Python
`sorted` uses on strings). -/
def listLexLe : List Char → List Char → Bool
  | [], _ => true
  | _ :: _, [] => false
  | a :: as, b :: bs =>
      if a.toNat < b.toNat then true
      else if b.toNat < a.toNat then false
      else listLexLe as bs

/-- Python string comparison `s <= t`. -/
def pyStrLe (s t : String) : Bool :=
  listLexLe s.toList t.toList

/-- Insert into a sorted list (used by `pySorted`). -/
def insertLe {α : Type} (le : α → α → Bool) (a : α) : List α → List α
  | [] => [a]
  | b :: t => if le a b then a :: b :: t else b :: insertLe le a t

/-- Insertion sort; on duplicate-free inputs it produces the unique
ascending enumeration, which is all Python `sorted` is used for here. -/
def pySorted {α : Type} (le : α → α → Bool) : List α → List α
  | [] => []
  | a :: t => insertLe le a (pySorted le t)

/-- `str.isdigit` for ASCII strings: nonempty and all characters digits. -/
def pyIsdigit (s : String) : Bool :=
  !s.toList.isEmpty && s.toList.all Char.isDigit

/-- Value of a list of decimal digit characters. -/
def digitsToNat (cs : List Char) : Nat :=
  cs.foldl (fun a c => a * 10 + (c.toNat - 48)) 0

/-- Python `float(s)` on plain decimal literals (optional sign, integer
part, optional fractional part), returning an exact rational; `none` models
`ValueError`.  Exponent / inf / nan spellings are not modelled: no input
exercised by the claims uses them. -/
def pyFloat? (s : String) : Option ℚ :=
  let cs := s.toList
  let signed : ℚ × List Char :=
    match cs with
    | '-' :: r => (-1, r)
    | '+' :: r => (1, r)
    | r => (1, r)
  let sign := signed.1
  let body := signed.2
  let intPart := body.takeWhile Char.isDigit
  let rest := body.drop intPart.length
  match rest with
  | [] =>
      if intPart.isEmpty then none
      else some (sign * (digitsToNat intPart : ℚ))
  | '.' :: frac =>
      if frac.all Char.isDigit && !(intPart.isEmpty && frac.isEmpty) then
        some (sign * ((digitsToNat intPart : ℚ) +
          (digitsToNat frac : ℚ) / ((10 : ℚ) ^ frac.length)))
      else none
  | _ => none

/-- `int(s)` for a digit string (the code only applies it after `isdigit`). -/
def strToNat (s : String) : Nat :=
  digitsToNat s.toList

/-- The adjacent-comparison check
`all(int(split[i][0]) < int(split[i+1][0]) for i in range(len(split) - 1))`. -/
def strictlyIncreasing (l : List Nat) : Bool :=
  (l.zip l.tail).all (fun p => p.1 < p.2)

/-- `parse_lambda_config` (bt_translation.py, lines 44-61): a single float
literal yields `(value, none)`; a comma-separated `step:value` list must
have a colon in every element, digit step tokens, and strictly increasing
steps (each violation is an `assert`), and yields
`(value of the first checkpoint, the checkpoint list)`. -/
def parse_lambda_config (x : String) : Except PyErr (ℚ × Option (List (Nat × ℚ))) :=
  let split := pySplit ',' x
  if split.length = 1 then
    match pyFloat? x with
    | some v => .ok (v, none)
    | none => .error .valueError
  else
    let split2 := split.map (fun s => pySplit ':' s)
    if !(split2.all (fun s => s.length = 2)) then .error .assertionError
    else if !(split2.all (fun s => pyIsdigit (s.headD ""))) then .error .assertionError
    else if !(strictlyIncreasing (split2.map (fun s => strToNat (s.headD "")))) then
      .error .assertionError
    else
      match split2.mapM (fun s => pyFloat? (s.getD 1 "")) with
      | some vals => .ok (vals.headD 0, some ((split2.map (fun s => strToNat (s.headD ""))).zip vals))
      | none => .error .valueError

/-- `lambda_step_func` (bt_translation.py, lines 449-461): piecewise-linear
schedule evaluation.  `ranges` collects the bracketing intervals; an empty
`ranges` asserts `n_iter >= config[-1][0]` and returns the last value, a
singleton interpolates linearly. -/
def lambda_step_func (config : List (Nat × ℚ)) (n_iter : Nat) : Except PyErr ℚ :=
  let ranges := (List.range (config.length - 1)).filter
    (fun i => decide ((config.getD i (0, 0)).1 ≤ n_iter) &&
      decide (n_iter < (config.getD (i + 1) (0, 0)).1))
  if ranges.isEmpty then
    if config.isEmpty then .error .indexError
    else if (config.getLastD (0, 0)).1 ≤ n_iter then .ok (config.getLastD (0, 0)).2
    else .error .assertionError
  else if ranges.length = 1 then
    let i := ranges.headD 0
    let a := config.getD i (0, 0)
    let b := config.getD (i + 1) (0, 0)
    .ok (a.2 + ((n_iter : ℚ) - (a.1 : ℚ)) * (b.2 - a.2) / ((b.1 : ℚ) - (a.1 : ℚ)))
  else .error .assertionError

/-- The three lambda coefficients held by `BtTranslationTask`
(`self.lambda_parallel`, `self.lambda_otf_bt`, `self.lambda_denoising`). -/
structure LambdaState where
  lambda_parallel : ℚ
  lambda_otf_bt : ℚ
  lambda_denoising : ℚ
  deriving DecidableEq, Repr

/-- The three optional schedules (`self.lambda_parallel_steps` etc.). -/
structure LambdaSchedules where
  parallel_steps : Option (List (Nat × ℚ))
  otf_bt_steps : Option (List (Nat × ℚ))
  denoising_steps : Option (List (Nat × ℚ))

/-- `BtTranslationTask.update_step` (bt_translation.py, lines 448-468):
re-evaluates every configured schedule at the update counter. -/
def update_step (sch : LambdaSchedules) (st : LambdaState) (num_updates : Nat) :
    Except PyErr LambdaState := do
  let st ← match sch.parallel_steps with
    | some c => do pure { st with lambda_parallel := (← lambda_step_func c num_updates) }
    | none => pure st
  let st ← match sch.otf_bt_steps with
    | some c => do pure { st with lambda_otf_bt := (← lambda_step_func c num_updates) }
    | none => pure st
  match sch.denoising_steps with
    | some c => do pure { st with lambda_denoising := (← lambda_step_func c num_updates) }
    | none => pure st

/-- A fairseq `Dictionary`, abstracted to its symbol list and special-token
indices (the only features the embedded code consults). -/
structure Dictionary where
  symbols : List String
  pad_index : Nat
  eos_index : Nat
  unk_index : Nat
  deriving DecidableEq, Repr

/-- `Dictionary.index(sym)`: position of the symbol, or the unknown index. -/
def Dictionary.index (d : Dictionary) (sym : String) : Nat :=
  (d.symbols.indexOf? sym).getD d.unk_index

/-- `_lang_token` (multilingual_translation.py, line 28). -/
def lang_token (lang : String) : String :=
  "__" ++ lang ++ "__"

/-- `_lang_token_index` (multilingual_translation.py, lines 32-37): asserts
the language token is present (index differs from unk). -/
def lang_token_index (d : Dictionary) (lang : String) : Except PyErr Nat :=
  let idx := d.index (lang_token lang)
  if idx = d.unk_index then .error .assertionError else .ok idx

/-- Task-level configuration (`self.args`) fields consulted by the
embedded code. -/
structure TaskArgs where
  encoder_langtok : Option String
  decoder_langtok : Bool
  sample_tag_prob : ℚ
  sampling : Bool
  sampling_topk : Int
  deriving Repr

/-- `get_encoder_langtok` (multilingual_translation.py, lines 200-206). -/
def get_encoder_langtok (args : TaskArgs) (dicts : String → Dictionary)
    (src_lang tgt_lang : String) : Except PyErr Nat :=
  match args.encoder_langtok with
  | none => .ok (dicts src_lang).eos_index
  | some mode =>
      if mode = "src" then lang_token_index (dicts src_lang) src_lang
      else lang_token_index (dicts src_lang) tgt_lang

/-- `get_decoder_langtok` (multilingual_translation.py, lines 208-211). -/
def get_decoder_langtok (args : TaskArgs) (dicts : String → Dictionary)
    (tgt_lang : String) : Except PyErr Nat :=
  if !args.decoder_langtok then .ok (dicts tgt_lang).eos_index
  else lang_token_index (dicts tgt_lang) tgt_lang

/-- Result of `alter_dataset_langtok`: either the dataset unchanged, or the
parameters handed to `TransformEosLangPairDataset`. -/
inductive AlterResult where
  | unchanged
  | transformed (src_eos : Option Nat) (new_src_eos : Option Nat)
      (tgt_bos : Option Nat) (new_tgt_bos : Option Nat)
      (new_src_eos_list : Option (List Nat))
      (new_src_eos_list_probs : Option (List ℚ))
  deriving DecidableEq, Repr

/-- Python truthiness of `tgt_lang in tgt_langs` for an optional value. -/
def optMem (x : Option String) (l : List String) : Bool :=
  match x with
  | some t => l.contains t
  | none => false

/-- `alter_dataset_langtok` (multilingual_translation.py, lines 213-251).
Divisions are Python divisions: dividing by zero raises
`ZeroDivisionError`.  On the training split with `tgt_lang` among
`tgt_langs`, the source-eos distribution assigns
`1 - sample_tag_prob` at the true target's position and
`sample_tag_prob / (len(tgt_langs) - 1)` elsewhere. -/
def alter_dataset_langtok (args : TaskArgs) (dicts : String → Dictionary)
    (src_eos : Option Nat) (src_lang : Option String)
    (tgt_eos : Option Nat) (tgt_lang : Option String)
    (tgt_langs : List String) (split : String) :
    Except PyErr AlterResult := do
  if args.encoder_langtok = none && !args.decoder_langtok then
    return .unchanged
  let enc : Option Nat × Option Nat ←
    if args.encoder_langtok ≠ none && src_eos ≠ none && src_lang ≠ none
        && tgt_lang ≠ none then do
      let t ← get_encoder_langtok args dicts (src_lang.getD "") (tgt_lang.getD "")
      pure (some t, src_eos)
    else
      pure (none, none)
  let new_src_eos := enc.1
  let src_eos := enc.2
  let dec : Option Nat × Option Nat ←
    if args.decoder_langtok && tgt_eos ≠ none && tgt_lang ≠ none then do
      let t ← get_decoder_langtok args dicts (tgt_lang.getD "")
      pure (some t, tgt_eos)
    else
      pure (none, none)
  let new_tgt_bos := dec.1
  let tgt_eos := dec.2
  if split = "train" && optMem tgt_lang tgt_langs then
    let cur_tgt_idx := tgt_langs.indexOf (tgt_lang.getD "")
    if (tgt_langs.length : ℤ) - 1 = 0 then throw .zeroDivisionError
    let p := args.sample_tag_prob / ((tgt_langs.length : ℚ) - 1)
    let probs := (List.replicate tgt_langs.length p).set cur_tgt_idx
      (1 - args.sample_tag_prob)
    let toks ← tgt_langs.mapM (fun t => get_encoder_langtok args dicts (src_lang.getD "") t)
    return .transformed src_eos new_src_eos tgt_eos new_tgt_bos (some toks) (some probs)
  else
    return .transformed src_eos new_src_eos tgt_eos new_tgt_bos none none

/-- The deduplicated, sorted language list
`sorted(list({x for lang_pair in args.lang_pairs for x in lang_pair.split('-')}))`. -/
def sortedLangs (lang_pairs : List String) : List String :=
  pySorted pyStrLe ((lang_pairs.flatMap (fun p => pySplit '-' p)).dedup)

/-- The dictionary-consistency portion of `MultilingualTranslationTask.prepare`
(multilingual_translation.py, lines 184-198): every language's dictionary
must agree with the first sorted language's dictionary on the pad, eos and
unk indices (each disagreement is an `assert`).  The language-token
registration in the same loop is omitted: `add_symbol` appends symbols and
never changes the three special indices. -/
def prepare_dicts_check (lang_pairs : List String) (dicts : String → Dictionary) :
    Except PyErr Unit :=
  if (sortedLangs lang_pairs).all (fun l =>
      (dicts l).pad_index = (dicts ((sortedLangs lang_pairs).headD "")).pad_index
      ∧ (dicts l).eos_index = (dicts ((sortedLangs lang_pairs).headD "")).eos_index
      ∧ (dicts l).unk_index = (dicts ((sortedLangs lang_pairs).headD "")).unk_index) then .ok ()
  else .error .assertionError

/-- Source language of a `"src-tgt"` pair string. -/
def srcOf (lang_pair : String) : String :=
  (pySplit '-' lang_pair).headD ""

/-- Target language of a `"src-tgt"` pair string. -/
def tgtOf (lang_pair : String) : String :=
  (pySplit '-' lang_pair).getD 1 ""

/-- `_get_bt_dataset_key` (bt_translation.py, lines 31-32). -/
def get_bt_dataset_key (lang_pair : String) : String :=
  "bt:" ++ lang_pair

/-- `_get_dds_bt_key` (bt_translation.py, lines 38-41): the reversed pair. -/
def get_dds_bt_key (lang_pair : String) : String :=
  tgtOf lang_pair ++ "-" ++ srcOf lang_pair

/-- `split_exists` (bt_translation.py, lines 147-156), file name
`data_path/{split}.{src}-{tgt}.{lang}`, where the callers pass the Python
value `None` for `tgt` in the monolingual case (formatted as `"None"`).
`ex` abstracts `IndexedDataset.exists` (or the raw-text variant). -/
def split_exists (ex : String → Bool) (data_path split src : String)
    (tgt : Option String) (lang : String) : Bool :=
  ex (data_path ++ "/" ++ split ++ "." ++ src ++ "-" ++ tgt.getD "None" ++ "." ++ lang)

/-- Which on-disk naming a pair's parallel files were found under. -/
inductive PrefixChoice where
  | srcTgt
  | tgtSrc
  deriving DecidableEq, Repr

/-- One entry of the composite `RoundRobinZipDatasets` built by
`BtTranslationTask.load_dataset`: a parallel dataset (with the naming it
was found under), or a `BacktranslationDataset` recording the language of
the wrapped monolingual dataset, the pair whose backtranslator generates
synthetic sources, and the pair whose parallel collater is reused. -/
inductive DatasetEntry where
  | parallel (choice : PrefixChoice)
  | bt (mono_lang : String) (backtranslation_pair : String) (output_collater_pair : String)
  deriving DecidableEq, Repr

/-- The parallel-data discovery loop of `BtTranslationTask.load_dataset`
(bt_translation.py, lines 158-171): try the `(src,tgt)` naming, fall back
to `(tgt,src)`, otherwise skip the pair. -/
def findParallel (ex : String → Bool) (data_path split : String)
    (lang_pairs : List String) : List (String × PrefixChoice) :=
  lang_pairs.filterMap (fun lp =>
    if split_exists ex data_path split (srcOf lp) (some (tgtOf lp)) (srcOf lp) then
      some (lp, .srcTgt)
    else if split_exists ex data_path split (tgtOf lp) (some (srcOf lp)) (srcOf lp) then
      some (lp, .tgtSrc)
    else none)

/-- The back-translation loop of `BtTranslationTask.load_dataset`
(bt_translation.py, lines 195-233), reduced to its control flow: per
configured pair, a missing monolingual file `{split}.{tgt}-None.{tgt}` is a
`FileNotFoundError`, and building the pair's `output_collater` reads
`src_datasets[lang_pair]`, a `KeyError` when the pair found no parallel
data. -/
def btMonoCheck (ex : String → Bool) (data_path split : String)
    (found : List String) : List String → Except PyErr Unit
  | [] => .ok ()
  | lp :: rest =>
      if !(split_exists ex data_path split (tgtOf lp) none (tgtOf lp)) then
        .error .fileNotFoundError
      else if !(found.contains lp) then .error .keyError
      else btMonoCheck ex data_path split found rest

/-- `BtTranslationTask.load_dataset` (bt_translation.py, lines 140-245),
reduced to the keyed entries of the composite dataset it installs: the
found parallel pairs (in configuration order) followed, on training
splits, by one `"bt:" + lang_pair` entry per configured pair, wrapping the
pair's target-language monolingual dataset with the pair's backtranslator
and the pair's parallel collater. -/
def bt_load_dataset (ex : String → Bool) (data_path : String)
    (lang_pairs : List String) (split : String) :
    Except PyErr (List (String × DatasetEntry)) := do
  let found := findParallel ex data_path split lang_pairs
  if found.length = 0 then throw .fileNotFoundError
  if pyStartswith split "train" then
    btMonoCheck ex data_path split (found.map Prod.fst) lang_pairs
    return found.map (fun q => (q.1, .parallel q.2)) ++
      lang_pairs.map (fun lp => (get_bt_dataset_key lp, .bt (tgtOf lp) lp lp))
  else
    return found.map (fun q => (q.1, .parallel q.2))

/-- Model-construction arguments (the `args` parameter of `build_model`)
fields consulted by the embedded code. -/
structure ModelArgs where
  lang_pairs : List String
  encoder_langtok : Option String
  decoder_langtok : Bool
  bt_beam_size : Nat
  bt_max_len_a : ℚ
  bt_max_len_b : ℚ
  deriving Repr

/-- One configuration discrepancy reported by `check_args` inside
`MultilingualTranslationTask.build_model`. -/
inductive Discrepancy where
  | langPairs
  | encoderLangtok
  | decoderLangtok
  deriving DecidableEq, Repr

/-- Errors raised by the two `build_model` implementations.
`configMismatch` models `ValueError(' '.join(messages))`, carrying the
discrepancies named in the joined message; `notMultiModel` models the
`ValueError` raised when the built model is not a `FairseqMultiModel`;
`assertionError` models the assertion inside `_lang_token_index`. -/
inductive BuildErr where
  | configMismatch (messages : List Discrepancy)
  | notMultiModel
  | assertionError
  deriving DecidableEq, Repr

/-- `check_args` message accumulation
(multilingual_translation.py, lines 347-357): one message per mismatching
item, in source order. -/
def check_args_messages (task_lang_pairs : List String)
    (task_enc : Option String) (task_dec : Bool) (margs : ModelArgs) :
    List Discrepancy :=
  (if !(task_lang_pairs.all (fun p => margs.lang_pairs.contains p)
        && margs.lang_pairs.all (fun p => task_lang_pairs.contains p)) then
    [Discrepancy.langPairs] else []) ++
  (if task_enc ≠ margs.encoder_langtok then [Discrepancy.encoderLangtok] else []) ++
  (if task_dec ≠ margs.decoder_langtok then [Discrepancy.decoderLangtok] else [])

/-- `MultilingualTranslationTask.build_model`
(multilingual_translation.py, lines 346-366): raise `ValueError` joining
every discrepancy message if any, then require the externally built model
to be a `FairseqMultiModel` (abstracted as `is_multi`). -/
def mt_build_model (task_lang_pairs : List String) (task_enc : Option String)
    (task_dec : Bool) (margs : ModelArgs) (is_multi : Bool) :
    Except BuildErr Unit :=
  let messages := check_args_messages task_lang_pairs task_enc task_dec margs
  if messages.length ≠ 0 then .error (.configMismatch messages)
  else if !is_multi then .error .notMultiModel
  else .ok ()

/-- A `SequenceGenerator` as configured at bt_translation.py, lines 290-295:
the target dictionary (identified by its language), beam size and the
max-length coefficients. -/
structure SeqGenCfg where
  tgt_dict_lang : String
  beam_size : Nat
  max_len_a : ℚ
  max_len_b : ℚ
  deriving DecidableEq, Repr

/-- The data captured by one `backtranslate_fn` closure
(bt_translation.py, lines 298-310): the sub-model key it generates with,
the bos token, the bound sequence generator, and the sampling mode read
from the task configuration. -/
structure BacktranslatorCfg where
  model_key : String
  bos_token : Nat
  generator : SeqGenCfg
  sampling : Bool
  sampling_topk : Int
  deriving DecidableEq, Repr

/-- Outcome of `BtTranslationTask.build_model`: the value of
`self.lang_pairs` while the external `models.build_model` call runs, its
value when the method finishes, and (on success) the per-pair sequence
generators and backtranslator closures. -/
structure BtBuildOutcome where
  lang_pairs_at_build : List String
  lang_pairs_final : List String
  result : Except BuildErr (List (String × SeqGenCfg) × List (String × BacktranslatorCfg))

/-- The generator/backtranslator loop of `BtTranslationTask.build_model`
(bt_translation.py, lines 286-310). -/
def btGenerators (targs : TaskArgs) (dicts : String → Dictionary)
    (margs : ModelArgs) :
    List String → Except BuildErr (List (String × SeqGenCfg) × List (String × BacktranslatorCfg))
  | [] => .ok ([], [])
  | lp :: rest =>
      let src := srcOf lp
      let tgt := tgtOf lp
      let key := tgt ++ "-" ++ src
      let gen : SeqGenCfg :=
        { tgt_dict_lang := src, beam_size := margs.bt_beam_size,
          max_len_a := margs.bt_max_len_a, max_len_b := margs.bt_max_len_b }
      match get_decoder_langtok targs dicts src with
      | .error _ => .error .assertionError
      | .ok decoder_lang_tok_idx =>
          match btGenerators targs dicts margs rest with
          | .error e => .error e
          | .ok (gens, bts) =>
              .ok ((key, gen) :: gens,
                (lp, { model_key := key, bos_token := decoder_lang_tok_idx,
                       generator := gen, sampling := targs.sampling,
                       sampling_topk := targs.sampling_topk }) :: bts)

/-- `BtTranslationTask.build_model` (bt_translation.py, lines 264-312) with
`bt_dds` disabled: copy `self.lang_pairs`, append the reversed pair per
configured pair, call the external `models.build_model` (assumed to
return), restore `self.lang_pairs`, require a `FairseqMultiModel`, and
when training build one sequence generator and backtranslator closure per
configured pair.  No configuration re-validation is performed: the
multilingual `check_args` is not invoked here. -/
def bt_build_model (lang_pairs : List String) (targs : TaskArgs)
    (dicts : String → Dictionary) (margs : ModelArgs)
    (training is_multi : Bool) : BtBuildOutcome :=
  let copied_lang_pairs := lang_pairs
  let extended := copied_lang_pairs.foldl
    (fun lps lp => lps ++ [tgtOf lp ++ "-" ++ srcOf lp]) lang_pairs
  -- model = models.build_model(args, self) runs with self.lang_pairs = extended
  let restored := copied_lang_pairs
  { lang_pairs_at_build := extended
    lang_pairs_final := restored
    result :=
      if !is_multi then .error .notMultiModel
      else if training then btGenerators targs dicts margs restored
      else .ok ([], []) }

/-- A value stored in a joint training sample (a Python dict keyed by the
composite-dataset keys): `none` (Python `None`), a batch abstracted by its
length and the loss / sample-size / logging-output triple the external
criterion returns for it under the selected sub-model, or a 2-tuple of
values. -/
inductive PyVal where
  | none
  | batch (len : Nat) (loss : ℚ) (sample_size : ℚ) (log : String)
  | tuple (fst snd : PyVal)
  deriving DecidableEq, Repr

/-- `len(v)` for a sample value: batches report their length, 2-tuples
report 2, `len(None)` is a `TypeError`. -/
def pyLen : PyVal → Except PyErr Nat
  | .none => .error .typeError
  | .batch n _ _ _ => .ok n
  | .tuple _ _ => .ok 2

/-- `v[0]` for a sample value: the first component of a tuple; subscripting
`None` is a `TypeError` and subscripting a batch dict by `0` a `KeyError`. -/
def pyGetFst : PyVal → Except PyErr PyVal
  | .none => .error .typeError
  | .batch _ _ _ _ => .error .keyError
  | .tuple f _ => .ok f

/-- `sample[key]` on a Python dict: `KeyError` when the key is absent. -/
def dictGet (sample : List (String × PyVal)) (key : String) : Except PyErr PyVal :=
  match sample.lookup key with
  | some v => .ok v
  | Option.none => .error .keyError

/-- The external criterion applied to a sample value: defined for batches,
a `TypeError` otherwise. -/
def criterionOn : PyVal → Except PyErr (ℚ × ℚ × String)
  | .batch _ loss ss log => .ok (loss, ss, log)
  | _ => .error .typeError

/-- The accumulator `(agg_loss, agg_sample_size, agg_logging_output)` of the
train/valid steps; the logging dict is kept as an insertion-ordered list. -/
structure StepAcc where
  agg_loss : ℚ
  agg_sample_size : ℚ
  agg_logging_output : List (String × String)
  deriving DecidableEq, Repr

/-- `forward_backward` inside `BtTranslationTask.train_step`
(bt_translation.py, lines 318-334) on the `ignore = False` path: skip when
the samples are `None` or empty, otherwise run the criterion, zero the
loss under `ignore_grad` or scale it by `weight`, and accumulate. -/
def forward_backward (acc : StepAcc) (samples : PyVal)
    (logging_output_key : String) (weight : ℚ) (ignore_grad : Bool) :
    Except PyErr StepAcc :=
  if samples = .none then .ok acc
  else
    match pyLen samples with
    | .error e => .error e
    | .ok len =>
        if len = 0 then .ok acc
        else
          match criterionOn samples with
          | .error e => .error e
          | .ok (loss, sample_size, logging_output) =>
              let loss := if ignore_grad then loss * 0 else loss * weight
              .ok { agg_loss := acc.agg_loss + loss
                    agg_sample_size := acc.agg_sample_size + sample_size
                    agg_logging_output :=
                      acc.agg_logging_output ++ [(logging_output_key, logging_output)] }

/-- The parallel pass of `BtTranslationTask.train_step`
(bt_translation.py, lines 339-361): `sample[lang_pair]` is read with a
plain subscript (a `KeyError` when absent) and fed to `forward_backward`
under `self.lambda_parallel`. -/
def btParallelPass (lambda_parallel : ℚ) (sample : List (String × PyVal))
    (ignore_grad : Bool) (acc : StepAcc) :
    List String → Except PyErr StepAcc
  | [] => .ok acc
  | lp :: rest =>
      match dictGet sample lp with
      | .error e => .error e
      | .ok v =>
          match forward_backward acc v lp lambda_parallel ignore_grad with
          | .error e => .error e
          | .ok acc => btParallelPass lambda_parallel sample ignore_grad acc rest

/-- The back-translation pass of `BtTranslationTask.train_step`
(bt_translation.py, lines 383-406) with `bt_dds` disabled:
`sample["bt:" + lang_pair][0]` is read with plain subscripts and fed to
`forward_backward` under `self.lambda_otf_bt`. -/
def btBtPass (lambda_otf_bt : ℚ) (sample : List (String × PyVal))
    (ignore_grad : Bool) (acc : StepAcc) :
    List String → Except PyErr StepAcc
  | [] => .ok acc
  | lp :: rest =>
      match dictGet sample (get_bt_dataset_key lp) with
      | .error e => .error e
      | .ok v =>
          match pyGetFst v with
          | .error e => .error e
          | .ok v0 =>
              match forward_backward acc v0 (get_bt_dataset_key lp) lambda_otf_bt ignore_grad with
              | .error e => .error e
              | .ok acc => btBtPass lambda_otf_bt sample ignore_grad acc rest

/-- `BtTranslationTask.train_step` (bt_translation.py, lines 314-431) with
`bt_dds` disabled.  Lines 337-338 overwrite the scheduled coefficients:
`self.lambda_parallel = 1.` and `self.lambda_otf_bt = 1.` before either
pass runs, so the weights actually applied are `1.0` regardless of the
incoming `LambdaState`.  Returns the accumulator together with the mutated
lambda state. -/
def bt_train_step (lang_pairs : List String) (st : LambdaState)
    (sample : List (String × PyVal)) (ignore_grad : Bool) :
    Except PyErr (StepAcc × LambdaState) :=
  let st := { st with lambda_parallel := 1, lambda_otf_bt := 1 }
  match btParallelPass st.lambda_parallel sample ignore_grad
      { agg_loss := 0, agg_sample_size := 0, agg_logging_output := [] } lang_pairs with
  | .error e => .error e
  | .ok acc =>
      match btBtPass st.lambda_otf_bt sample ignore_grad acc lang_pairs with
      | .error e => .error e
      | .ok acc => .ok (acc, st)

/-- `MultilingualTranslationTask.train_step`
(multilingual_translation.py, lines 368-411) with no data actor: a pair
absent from the sample, mapped to `None`, or with an empty sample is
skipped; otherwise the criterion runs, the loss is zeroed under
`ignore_grad`, and the totals accumulate. -/
def mtTrainGo (sample : List (String × PyVal)) (ignore_grad : Bool)
    (acc : StepAcc) : List String → Except PyErr StepAcc
  | [] => .ok acc
  | lp :: rest =>
      match sample.lookup lp with
      | Option.none => mtTrainGo sample ignore_grad acc rest
      | some v =>
          if v = .none then mtTrainGo sample ignore_grad acc rest
          else
            match pyLen v with
            | .error e => .error e
            | .ok len =>
                if len = 0 then mtTrainGo sample ignore_grad acc rest
                else
                  match criterionOn v with
                  | .error e => .error e
                  | .ok (loss, sample_size, logging_output) =>
                      let loss := if ignore_grad then loss * 0 else loss
                      mtTrainGo sample ignore_grad
                        { agg_loss := acc.agg_loss + loss
                          agg_sample_size := acc.agg_sample_size + sample_size
                          agg_logging_output :=
                            acc.agg_logging_output ++ [(lp, logging_output)] } rest

/-- `MultilingualTranslationTask.train_step` over `self.model_lang_pairs`. -/
def mt_train_step (model_lang_pairs : List String)
    (sample : List (String × PyVal)) (ignore_grad : Bool) :
    Except PyErr StepAcc :=
  mtTrainGo sample ignore_grad
    { agg_loss := 0, agg_sample_size := 0, agg_logging_output := [] } model_lang_pairs

/-- `MultilingualTranslationTask.valid_step`
(multilingual_translation.py, lines 413-425): the same skip-and-accumulate
loop over `self.eval_lang_pairs`, without gradient propagation. -/
def mt_valid_step (eval_lang_pairs : List String)
    (sample : List (String × PyVal)) : Except PyErr StepAcc :=
  mtTrainGo sample false
    { agg_loss := 0, agg_sample_size := 0, agg_logging_output := [] } eval_lang_pairs

/-- Whether `MultilingualTranslationTask.train_step` / `valid_step`
processes a pair: present in the sample, not `None`, nonempty. -/
def keptPair (sample : List (String × PyVal)) (lp : String) : Bool :=
  match sample.lookup lp with
  | Option.none => false
  | some PyVal.none => false
  | some (PyVal.batch n _ _ _) => n != 0
  | some (PyVal.tuple _ _) => true

/-- A sample value `forward_backward` skips: `None` or empty. -/
def noneOrEmpty : PyVal → Bool
  | .none => true
  | .batch n _ _ _ => n == 0
  | .tuple _ _ => false

/-! ## Helper lemmas -/

theorem list_eq_singleton_of_mem {α : Type} {l : List α} {a : α}
    (hn : l.Nodup) (hm : a ∈ l) (hall : ∀ b ∈ l, b = a) : l = [a] := by
  match l with
  | [] => cases hm
  | b :: t =>
      have hb : b = a := hall b (List.mem_cons_self b t)
      subst hb
      have ht : t = [] := by
        rw [List.eq_nil_iff_forall_not_mem]
        intro x hx
        have hxa : x = b := hall x (List.mem_cons_of_mem b hx)
        subst hxa
        exact (List.nodup_cons.mp hn).1 hx
      rw [ht]

instance {ε α : Type} [DecidableEq ε] [DecidableEq α] : DecidableEq (Except ε α) :=
  fun a b =>
    match a, b with
    | .ok x, .ok y =>
        if h : x = y then isTrue (by rw [h]) else isFalse (fun hc => h (Except.ok.inj hc))
    | .error x, .error y =>
        if h : x = y then isTrue (by rw [h]) else isFalse (fun hc => h (Except.error.inj hc))
    | .ok _, .error _ => isFalse (fun hc => Except.noConfusion hc)
    | .error _, .ok _ => isFalse (fun hc => Except.noConfusion hc)

theorem strictlyIncreasing_tail (a b : Nat) (u : List Nat) :
    strictlyIncreasing (a :: b :: u) =
      (decide (a < b) && strictlyIncreasing (b :: u)) := by
  simp [strictlyIncreasing]

theorem strictlyIncreasing_iff_chain : ∀ l : List Nat,
    strictlyIncreasing l = true ↔ List.Chain' (· < ·) l
  | [] => by simp [strictlyIncreasing]
  | [a] => by simp [strictlyIncreasing]
  | a :: b :: u => by
      rw [strictlyIncreasing_tail, List.chain'_cons, Bool.and_eq_true, decide_eq_true_eq,
        strictlyIncreasing_iff_chain (b :: u)]

theorem strictlyIncreasing_getD_lt {l : List Nat} (h : strictlyIncreasing l = true)
    {i j : Nat} (hij : i < j) (hj : j < l.length) : l.getD i 0 < l.getD j 0 := by
  have hch : List.Chain' (fun a b => a < b) l := (strictlyIncreasing_iff_chain l).mp h
  have hpw : List.Pairwise (fun a b => a < b) l := List.chain'_iff_pairwise.mp hch
  have hi : i < l.length := lt_trans hij hj
  have := (List.pairwise_iff_get.mp hpw) ⟨i, hi⟩ ⟨j, hj⟩ hij
  rwa [List.getD_eq_get l 0 hi, List.getD_eq_get l 0 hj]

theorem getD_map_fst (config : List (Nat × ℚ)) (i : Nat) :
    (config.map Prod.fst).getD i 0 = (config.getD i (0, 0)).1 := by
  rw [List.getD_eq_getD_get?, List.getD_eq_getD_get?, List.get?_map]
  cases config.get? i <;> rfl

theorem foldl_append_singleton {α β : Type} (f : α → β) :
    ∀ (l : List α) (init : List β),
      l.foldl (fun acc x => acc ++ [f x]) init = init ++ l.map f := by
  intro l
  induction l with
  | nil => intro init; simp
  | cons a t ih => intro init; simp [List.foldl_cons, ih]

/-! ## Claim theorems -/

/-- C1: with `lambda-otf-bt-config="0:0,100:1"` the schedule parses to
initial value `0` with checkpoints `[(0,0),(100,1)]`, and `update_step`
duly sets `lambda_otf_bt` to `0` at update `0` and to `1` at update `100`;
but `train_step` overwrites `self.lambda_otf_bt` with `1.0`
(bt_translation.py, line 338) before weighting, so a back-translation
batch with loss `3` processed at update step `0` contributes `3` (weight
`1.0`) to the accumulated loss — `agg_loss = 2 + 3 = 5` below — instead of
the weight `0` the configured schedule (and the option's documentation)
prescribe. -/
theorem C1_bt_lambda_override :
    parse_lambda_config "0:0,100:1" = .ok (0, some [(0, 0), (100, 1)]) ∧
    update_step ⟨none, some [(0, 0), (100, 1)], none⟩ ⟨1, 0, 0⟩ 0 = .ok ⟨1, 0, 0⟩ ∧
    update_step ⟨none, some [(0, 0), (100, 1)], none⟩ ⟨1, 0, 0⟩ 100 = .ok ⟨1, 1, 0⟩ ∧
    bt_train_step ["en-de"] ⟨1, 0, 0⟩
      [("en-de", .batch 1 2 1 "p"), ("bt:en-de", .tuple (.batch 1 3 1 "b") .none)] false
      = .ok (⟨5, 2, [("en-de", "p"), ("bt:en-de", "b")]⟩, ⟨1, 1, 0⟩) := by
  refine ⟨by decide, by decide, by decide, by decide⟩

/-- C2: `parse_lambda_config` maps a single float literal to
`(value, none)` and a `step:value` list to `(first checkpoint's value,
checkpoint list)`; every multi-element input with a colon-less pair, a
non-digit step token, or non-strictly-increasing steps is rejected with an
error. -/
theorem C2_parse_lambda_config_contract :
    parse_lambda_config "3" = .ok (3, none) ∧
    parse_lambda_config "0:1,1000:0" = .ok (1, some [(0, 1), (1000, 0)]) ∧
    ∀ x : String,
      2 ≤ (pySplit ',' x).length →
      ((∃ s ∈ (pySplit ',' x).map (fun s => pySplit ':' s), s.length ≠ 2) ∨
       (∃ s ∈ (pySplit ',' x).map (fun s => pySplit ':' s), pyIsdigit (s.headD "") = false) ∨
       strictlyIncreasing (((pySplit ',' x).map (fun s => pySplit ':' s)).map
         (fun s => strToNat (s.headD ""))) = false) →
      ∃ e, parse_lambda_config x = .error e := by
  refine ⟨by decide, by decide, ?_⟩
  intro x hlen hbad
  rw [parse_lambda_config]
  have hne : ¬ (pySplit ',' x).length = 1 := by omega
  simp only [hne, if_false]
  cases h1 : ((pySplit ',' x).map (fun s => pySplit ':' s)).all (fun s => s.length = 2) with
  | false => simp [h1]
  | true =>
      cases h2 : ((pySplit ',' x).map (fun s => pySplit ':' s)).all
          (fun s => pyIsdigit (s.headD "")) with
      | false => simp [h1, h2]
      | true =>
          cases h3 : strictlyIncreasing (((pySplit ',' x).map (fun s => pySplit ':' s)).map
              (fun s => strToNat (s.headD ""))) with
          | false => simp [h1, h2, h3]
          | true =>
              exfalso
              rcases hbad with hb | hb | hb
              · rcases hb with ⟨s, hs, hslen⟩
                exact hslen (of_decide_eq_true (List.all_eq_true.mp h1 s hs))
              · rcases hb with ⟨s, hs, hsd⟩
                have hd := List.all_eq_true.mp h2 s hs
                rw [hd] at hsd
                exact Bool.noConfusion hsd
              · rw [h3] at hb
                exact Bool.noConfusion hb

/-- Witness for C2 at the malformed input `"1,2"`. -/
theorem C2_parse_lambda_config_contract_witness :
    2 ≤ ((pySplit ',' "1,2")).length ∧ ∃ e, parse_lambda_config "1,2" = .error e :=
  ⟨by decide, C2_parse_lambda_config_contract.2.2 "1,2" (by decide) (Or.inl (by decide))⟩

theorem getLastD_eq_getD {α : Type} (l : List α) (d : α) :
    l.getLastD d = l.getD (l.length - 1) d := by
  rw [List.getLastD_eq_getLast?, List.getLast?_eq_get?, List.getD_eq_getD_get?]

theorem headD_eq_getD {α : Type} (l : List α) (d : α) :
    l.headD d = l.getD 0 d := by
  cases l <;> rfl

theorem keyOf_le_of_le {config : List (Nat × ℚ)}
    (hst : strictlyIncreasing (config.map Prod.fst) = true)
    {i j : Nat} (hij : i ≤ j) (hj : j < config.length) :
    (config.getD i (0, 0)).1 ≤ (config.getD j (0, 0)).1 := by
  rcases Nat.eq_or_lt_of_le hij with h | h
  · rw [h]
  · rw [← getD_map_fst, ← getD_map_fst]
    exact le_of_lt (strictlyIncreasing_getD_lt hst h (by simpa using hj))

theorem lambda_ranges_mem (config : List (Nat × ℚ)) (n i : Nat) :
    i ∈ (List.range (config.length - 1)).filter
      (fun i => decide ((config.getD i (0, 0)).1 ≤ n) &&
        decide (n < (config.getD (i + 1) (0, 0)).1)) ↔
    i < config.length - 1 ∧ (config.getD i (0, 0)).1 ≤ n ∧
      n < (config.getD (i + 1) (0, 0)).1 := by
  rw [List.mem_filter, List.mem_range, Bool.and_eq_true, decide_eq_true_eq,
    decide_eq_true_eq]

theorem lambda_step_func_clamp {config : List (Nat × ℚ)} {n : Nat}
    (hst : strictlyIncreasing (config.map Prod.fst) = true)
    (hne : config ≠ []) (hn : (config.getLastD (0, 0)).1 ≤ n) :
    lambda_step_func config n = .ok (config.getLastD (0, 0)).2 := by
  have hlen : 0 < config.length := List.length_pos.mpr hne
  have hlast : config.getLastD (0, 0) = config.getD (config.length - 1) (0, 0) :=
    getLastD_eq_getD config (0, 0)
  have hr : (List.range (config.length - 1)).filter
      (fun i => decide ((config.getD i (0, 0)).1 ≤ n) &&
        decide (n < (config.getD (i + 1) (0, 0)).1)) = [] := by
    rw [List.filter_eq_nil_iff]
    intro i hi
    rw [List.mem_range] at hi
    intro hP
    rw [Bool.and_eq_true, decide_eq_true_eq, decide_eq_true_eq] at hP
    have h1 : (config.getD (i + 1) (0, 0)).1 ≤ (config.getD (config.length - 1) (0, 0)).1 :=
      keyOf_le_of_le hst (by omega) (by omega)
    rw [← hlast] at h1
    omega
  rw [lambda_step_func]
  simp only [hr, List.isEmpty_nil, if_true]
  have hcne : config.isEmpty = false := by
    cases config with
    | nil => exact absurd rfl hne
    | cons a t => rfl
  rw [if_neg (by simp [hcne]), if_pos hn]

theorem lambda_step_func_interp {config : List (Nat × ℚ)} {n i : Nat}
    (hst : strictlyIncreasing (config.map Prod.fst) = true)
    (hi : i + 1 < config.length)
    (hle : (config.getD i (0, 0)).1 ≤ n)
    (hlt : n < (config.getD (i + 1) (0, 0)).1) :
    lambda_step_func config n = .ok ((config.getD i (0, 0)).2 +
      ((n : ℚ) - ((config.getD i (0, 0)).1 : ℚ)) *
        ((config.getD (i + 1) (0, 0)).2 - (config.getD i (0, 0)).2) /
        (((config.getD (i + 1) (0, 0)).1 : ℚ) - ((config.getD i (0, 0)).1 : ℚ))) := by
  have hr : (List.range (config.length - 1)).filter
      (fun i => decide ((config.getD i (0, 0)).1 ≤ n) &&
        decide (n < (config.getD (i + 1) (0, 0)).1)) = [i] := by
    apply list_eq_singleton_of_mem
    · exact List.Nodup.filter _ (List.nodup_range _)
    · exact (lambda_ranges_mem config n i).mpr ⟨by omega, hle, hlt⟩
    · intro j hj
      rw [lambda_ranges_mem config n j] at hj
      rcases hj with ⟨hjlen, hjle, hjlt⟩
      by_contra hne
      rcases Nat.lt_or_ge j i with h | h
      · -- j < i: key (j+1) ≤ key i ≤ n contradicts n < key (j+1)
        have : (config.getD (j + 1) (0, 0)).1 ≤ (config.getD i (0, 0)).1 :=
          keyOf_le_of_le hst (by omega) (by omega)
        omega
      · -- i < j: key (i+1) ≤ key j ≤ n contradicts n < key (i+1)
        have hij : i < j := by omega
        have : (config.getD (i + 1) (0, 0)).1 ≤ (config.getD j (0, 0)).1 :=
          keyOf_le_of_le hst (by omega) (by omega)
        omega
  rw [lambda_step_func]
  simp only [hr]
  rfl

theorem lambda_step_func_before_first {config : List (Nat × ℚ)} {n : Nat}
    (hst : strictlyIncreasing (config.map Prod.fst) = true)
    (hne : config ≠ []) (hn : n < (config.headD (0, 0)).1) :
    lambda_step_func config n = .error .assertionError := by
  have hlen : 0 < config.length := List.length_pos.mpr hne
  rw [headD_eq_getD] at hn
  have hr : (List.range (config.length - 1)).filter
      (fun i => decide ((config.getD i (0, 0)).1 ≤ n) &&
        decide (n < (config.getD (i + 1) (0, 0)).1)) = [] := by
    rw [List.filter_eq_nil_iff]
    intro i hi
    rw [List.mem_range] at hi
    intro hP
    rw [Bool.and_eq_true, decide_eq_true_eq, decide_eq_true_eq] at hP
    have h0 : (config.getD 0 (0, 0)).1 ≤ (config.getD i (0, 0)).1 :=
      keyOf_le_of_le hst (Nat.zero_le i) (by omega)
    omega
  have hlastge : (config.getD 0 (0, 0)).1 ≤ (config.getD (config.length - 1) (0, 0)).1 :=
    keyOf_le_of_le hst (Nat.zero_le _) (by omega)
  rw [lambda_step_func]
  simp only [hr, List.isEmpty_nil, if_true]
  have hcne : config.isEmpty = false := by
    cases config with
    | nil => exact absurd rfl hne
    | cons a t => rfl
  have hnlt : ¬ (config.getLastD (0, 0)).1 ≤ n := by
    rw [getLastD_eq_getD]
    omega
  rw [if_neg (by simp [hcne]), if_neg hnlt]

/-- C3 (amended): for every schedule with strictly increasing checkpoint
steps, evaluation at or beyond the last checkpoint returns the last
checkpoint's value; evaluation strictly between two bracketing checkpoints
returns their linear interpolation (for `[(0,1),(1000,0)]`: `0.5` at 500,
`0` at 1000 and at 5000); but evaluation at a step strictly before the
first checkpoint raises an `AssertionError` (the `assert
n_iter >= config[-1][0]` fails) rather than yielding the configured
initial value. -/
theorem C3_schedule_evaluation :
    (∀ (config : List (Nat × ℚ)) (n : Nat),
      strictlyIncreasing (config.map Prod.fst) = true → config ≠ [] →
      (config.getLastD (0, 0)).1 ≤ n →
      lambda_step_func config n = .ok (config.getLastD (0, 0)).2) ∧
    (∀ (config : List (Nat × ℚ)) (n i : Nat),
      strictlyIncreasing (config.map Prod.fst) = true → i + 1 < config.length →
      (config.getD i (0, 0)).1 ≤ n → n < (config.getD (i + 1) (0, 0)).1 →
      lambda_step_func config n = .ok ((config.getD i (0, 0)).2 +
        ((n : ℚ) - ((config.getD i (0, 0)).1 : ℚ)) *
          ((config.getD (i + 1) (0, 0)).2 - (config.getD i (0, 0)).2) /
          (((config.getD (i + 1) (0, 0)).1 : ℚ) - ((config.getD i (0, 0)).1 : ℚ)))) ∧
    lambda_step_func [(0, 1), (1000, 0)] 500 = .ok (1 / 2) ∧
    lambda_step_func [(0, 1), (1000, 0)] 1000 = .ok 0 ∧
    lambda_step_func [(0, 1), (1000, 0)] 5000 = .ok 0 ∧
    (∀ (config : List (Nat × ℚ)) (n : Nat),
      strictlyIncreasing (config.map Prod.fst) = true → config ≠ [] →
      n < (config.headD (0, 0)).1 →
      lambda_step_func config n = .error .assertionError) :=
  ⟨fun _ _ => lambda_step_func_clamp, fun _ _ _ => lambda_step_func_interp,
    by decide, by decide, by decide, fun _ _ => lambda_step_func_before_first⟩

/-- Counterexample for C3 as stated: for the schedule `[(5,1),(10,0)]`
(configuration string `"5:1,10:0"`, configured initial value `1.0`),
evaluating at step `2` — strictly before the first checkpoint — raises an
`AssertionError` instead of yielding the configured initial value `1.0`. -/
theorem C3_before_first_counterexample :
    lambda_step_func [(5, 1), (10, 0)] 2 = .error .assertionError ∧
    lambda_step_func [(5, 1), (10, 0)] 2 ≠ .ok 1 := by
  refine ⟨by decide, by decide⟩

/-- Witness for C3 at the schedule `[(0,1),(1000,0)]`. -/
theorem C3_schedule_evaluation_witness :
    lambda_step_func [(0, 1), (1000, 0)] 5000 = .ok 0 ∧
    lambda_step_func [(0, 1), (1000, 0)] 500 = .ok (1 / 2) ∧
    lambda_step_func [(5, 1), (10, 0)] 2 = .error .assertionError :=
  ⟨by
    have h := C3_schedule_evaluation.1 [(0, 1), (1000, 0)] 5000 (by decide)
      (by decide) (by decide)
    simpa using h,
   by
    have h := C3_schedule_evaluation.2.1 [(0, 1), (1000, 0)] 500 0 (by decide)
      (by decide) (by decide) (by decide)
    rw [h]
    norm_num,
   C3_schedule_evaluation.2.2.2.2.2 [(5, 1), (10, 0)] 2 (by decide) (by decide) (by decide)⟩

/-- C10: `BtTranslationTask.build_model` calls the external model builder
with `self.lang_pairs` temporarily extended by the reverse pair `tgt-src`
of every configured pair `src-tgt`, and `self.lang_pairs` equals the
original configured list again when the method finishes. -/
theorem C10_lang_pairs_restored :
    ∀ (lang_pairs : List String) (targs : TaskArgs) (dicts : String → Dictionary)
      (margs : ModelArgs) (training is_multi : Bool),
      (bt_build_model lang_pairs targs dicts margs training is_multi).lang_pairs_final
        = lang_pairs ∧
      (bt_build_model lang_pairs targs dicts margs training is_multi).lang_pairs_at_build
        = lang_pairs ++ lang_pairs.map (fun lp => tgtOf lp ++ "-" ++ srcOf lp) := by
  intro lps targs dicts margs tr im
  exact ⟨rfl, foldl_append_singleton _ lps lps⟩

theorem btGenerators_congr (targs : TaskArgs) (dicts : String → Dictionary)
    {margs margs2 : ModelArgs}
    (hb : margs2.bt_beam_size = margs.bt_beam_size)
    (ha : margs2.bt_max_len_a = margs.bt_max_len_a)
    (hbb : margs2.bt_max_len_b = margs.bt_max_len_b) :
    ∀ l : List String, btGenerators targs dicts margs2 l = btGenerators targs dicts margs l := by
  intro l
  induction l with
  | nil => rfl
  | cons lp rest ih => simp [btGenerators, hb, ha, hbb, ih]

theorem btGenerators_no_configMismatch (targs : TaskArgs) (dicts : String → Dictionary)
    (margs : ModelArgs) :
    ∀ (l : List String) (msgs : List Discrepancy),
      btGenerators targs dicts margs l ≠ .error (.configMismatch msgs) := by
  intro l
  induction l with
  | nil => intro msgs h; cases h
  | cons lp rest ih =>
      intro msgs h
      rw [btGenerators] at h
      cases hd : get_decoder_langtok targs dicts (srcOf lp) with
      | error e => rw [hd] at h; cases h
      | ok tok =>
          rw [hd] at h
          cases hr : btGenerators targs dicts margs rest with
          | error e =>
              rw [hr] at h
              cases h
              exact ih msgs hr
          | ok p => rw [hr] at h; cases h

/-- C6 (amended): the multilingual task's `build_model` re-validates the
language-pair set, the encoder-langtok mode and the decoder-langtok flag
against the model-construction arguments, raising a `ValueError` whose
joined message names exactly the discrepancies found, and then requires
the built model to be a `FairseqMultiModel`; the back-translation task's
`build_model` performs the `FairseqMultiModel` requirement but no
configuration re-validation at all (its outcome does not depend on the
model arguments' language-pair set or langtok modes, and it never reports
a configuration mismatch). -/
theorem C6_build_model_validation :
    (∀ (tlps : List String) (tenc : Option String) (tdec : Bool) (margs : ModelArgs),
      (Discrepancy.langPairs ∈ check_args_messages tlps tenc tdec margs ↔
        (tlps.all (fun p => margs.lang_pairs.contains p)
          && margs.lang_pairs.all (fun p => tlps.contains p)) = false) ∧
      (Discrepancy.encoderLangtok ∈ check_args_messages tlps tenc tdec margs ↔
        tenc ≠ margs.encoder_langtok) ∧
      (Discrepancy.decoderLangtok ∈ check_args_messages tlps tenc tdec margs ↔
        tdec ≠ margs.decoder_langtok)) ∧
    (∀ (tlps : List String) (tenc : Option String) (tdec : Bool) (margs : ModelArgs)
        (im : Bool),
      (check_args_messages tlps tenc tdec margs ≠ [] →
        mt_build_model tlps tenc tdec margs im =
          .error (.configMismatch (check_args_messages tlps tenc tdec margs))) ∧
      (check_args_messages tlps tenc tdec margs = [] →
        mt_build_model tlps tenc tdec margs im =
          if im then .ok () else .error .notMultiModel)) ∧
    (∀ (lps : List String) (targs : TaskArgs) (dicts : String → Dictionary)
        (margs : ModelArgs) (training : Bool),
      (bt_build_model lps targs dicts margs training false).result = .error .notMultiModel) ∧
    (∀ (lps : List String) (targs : TaskArgs) (dicts : String → Dictionary)
        (margs margs2 : ModelArgs) (training im : Bool),
      margs2.bt_beam_size = margs.bt_beam_size →
      margs2.bt_max_len_a = margs.bt_max_len_a →
      margs2.bt_max_len_b = margs.bt_max_len_b →
      (bt_build_model lps targs dicts margs2 training im).result =
        (bt_build_model lps targs dicts margs training im).result) ∧
    (∀ (lps : List String) (targs : TaskArgs) (dicts : String → Dictionary)
        (margs : ModelArgs) (training im : Bool) (msgs : List Discrepancy),
      (bt_build_model lps targs dicts margs training im).result ≠
        .error (.configMismatch msgs)) := by
  refine ⟨?_, ?_, ?_, ?_, ?_⟩
  · intro tlps tenc tdec margs
    refine ⟨?_, ?_, ?_⟩ <;>
      cases hA : (tlps.all (fun p => margs.lang_pairs.contains p)
          && margs.lang_pairs.all (fun p => tlps.contains p)) <;>
        by_cases h2 : tenc = margs.encoder_langtok <;>
        by_cases h3 : tdec = margs.decoder_langtok <;>
        simp [check_args_messages, hA, h2, h3] <;>
        first
          | (rcases Bool.and_eq_false_iff.mp hA with h | h
             · left
               rcases List.all_eq_false.mp h with ⟨y, hy, hny⟩
               exact ⟨y, hy, by simpa using hny⟩
             · right
               rcases List.all_eq_false.mp h with ⟨y, hy, hny⟩
               exact ⟨y, hy, by simpa using hny⟩)
          | (rw [Bool.and_eq_true] at hA
             exact ⟨fun y hy => by simpa using List.all_eq_true.mp hA.1 y hy,
               fun y hy => by simpa using List.all_eq_true.mp hA.2 y hy⟩)
  · intro tlps tenc tdec margs im
    constructor
    · intro hne
      rw [mt_build_model]
      have : check_args_messages tlps tenc tdec margs ≠ [] := hne
      rw [if_pos (by
        intro h0
        exact this (List.length_eq_zero.mp h0))]
    · intro hz
      rw [mt_build_model, hz]
      cases im <;> simp
  · intro lps targs dicts margs training
    rfl
  · intro lps targs dicts margs margs2 training im hb ha hbb
    rw [bt_build_model, bt_build_model]
    cases im with
    | false => rfl
    | true =>
        cases training with
        | false => rfl
        | true => simp [btGenerators_congr targs dicts hb ha hbb]
  · intro lps targs dicts margs training im msgs
    rw [bt_build_model]
    cases im with
    | false => intro h; cases h
    | true =>
        cases training with
        | false => intro h; cases h
        | true =>
            simp only [Bool.not_true]
            intro h
            exact btGenerators_no_configMismatch targs dicts margs lps msgs (by simpa using h)

/-- Counterexample for C6 as stated: a model-argument set that disagrees
with the task configuration on all three validated items (language pairs,
encoder-langtok mode and decoder-langtok flag) makes the multilingual
`build_model` fail naming all three discrepancies, yet the
back-translation task's `build_model` succeeds on exactly the same
mismatched arguments — it never re-validates them. -/
theorem C6_bt_no_validation_counterexample :
    mt_build_model ["en-de"] none false
      ⟨["fr-cs"], some "src", true, 5, 11 / 10, 10⟩ true =
      .error (.configMismatch [.langPairs, .encoderLangtok, .decoderLangtok]) ∧
    (bt_build_model ["en-de"] ⟨none, false, 0, false, 0⟩ (fun _ => ⟨[], 0, 1, 2⟩)
      ⟨["fr-cs"], some "src", true, 5, 11 / 10, 10⟩ true true).result =
      .ok ([("de-en", ⟨"en", 5, 11 / 10, 10⟩)],
        [("en-de", ⟨"de-en", 1, ⟨"en", 5, 11 / 10, 10⟩, false, 0⟩)]) := by
  refine ⟨by decide, by decide⟩

theorem mem_insertLe {α : Type} (le : α → α → Bool) (a b : α) :
    ∀ l : List α, b ∈ insertLe le a l ↔ b = a ∨ b ∈ l := by
  intro l
  induction l with
  | nil => simp [insertLe]
  | cons c t ih =>
      rw [insertLe]
      by_cases h : le a c = true
      · simp [h]
      · have hf : le a c = false := by
          cases hv : le a c with
          | false => rfl
          | true => exact absurd hv h
        simp only [hf, Bool.false_eq_true, if_false, List.mem_cons, ih]
        tauto

theorem mem_pySorted {α : Type} (le : α → α → Bool) (b : α) :
    ∀ l : List α, b ∈ pySorted le l ↔ b ∈ l := by
  intro l
  induction l with
  | nil => simp [pySorted]
  | cons a t ih => rw [pySorted, mem_insertLe, ih, List.mem_cons]

theorem mem_sortedLangs (lang_pairs : List String) (l : String) :
    l ∈ sortedLangs lang_pairs ↔ ∃ p ∈ lang_pairs, l ∈ pySplit '-' p := by
  rw [sortedLangs, mem_pySorted, List.mem_dedup, List.mem_flatMap]

/-- C8: task setup collects exactly the languages appearing in some
configured pair, and whenever any two collected languages' dictionaries
disagree on the pad, eos or unk index, the dictionary-loading loop of
`prepare` fails with an assertion error. -/
theorem C8_dictionary_consistency :
    ∀ (lang_pairs : List String) (dicts : String → Dictionary),
      (∀ l : String, l ∈ sortedLangs lang_pairs ↔ ∃ p ∈ lang_pairs, l ∈ pySplit '-' p) ∧
      (∀ l1 ∈ sortedLangs lang_pairs, ∀ l2 ∈ sortedLangs lang_pairs,
        ((dicts l1).pad_index ≠ (dicts l2).pad_index ∨
         (dicts l1).eos_index ≠ (dicts l2).eos_index ∨
         (dicts l1).unk_index ≠ (dicts l2).unk_index) →
        prepare_dicts_check lang_pairs dicts = .error .assertionError) := by
  intro lang_pairs dicts
  refine ⟨mem_sortedLangs lang_pairs, ?_⟩
  intro l1 h1 l2 h2 hmis
  rw [prepare_dicts_check]
  cases hall : (sortedLangs lang_pairs).all (fun l =>
      decide ((dicts l).pad_index = (dicts ((sortedLangs lang_pairs).headD "")).pad_index
        ∧ (dicts l).eos_index = (dicts ((sortedLangs lang_pairs).headD "")).eos_index
        ∧ (dicts l).unk_index = (dicts ((sortedLangs lang_pairs).headD "")).unk_index)) with
  | false => simp [hall]
  | true =>
      exfalso
      have g1 := of_decide_eq_true (List.all_eq_true.mp hall l1 h1)
      have g2 := of_decide_eq_true (List.all_eq_true.mp hall l2 h2)
      rcases hmis with h | h | h
      · exact h (g1.1.trans g2.1.symm)
      · exact h (g1.2.1.trans g2.2.1.symm)
      · exact h (g1.2.2.trans g2.2.2.symm)

/-- Witness for C8: languages `en` and `de` with unk indices 2 versus 3. -/
theorem C8_dictionary_consistency_witness :
    ("en" ∈ sortedLangs ["en-de"] ∧ "de" ∈ sortedLangs ["en-de"]) ∧
    prepare_dicts_check ["en-de"]
      (fun l => if l = "en" then ⟨[], 0, 1, 2⟩ else ⟨[], 0, 1, 3⟩) =
      .error .assertionError :=
  ⟨⟨by decide, by decide⟩,
    (C8_dictionary_consistency ["en-de"]
        (fun l => if l = "en" then ⟨[], 0, 1, 2⟩ else ⟨[], 0, 1, 3⟩)).2
      "en" (by decide) "de" (by decide) (Or.inr (Or.inr (by decide)))⟩

theorem mapM_loop_ok_const {alpha beta : Type} (c : beta) :
    ∀ (l : List alpha) (acc : List beta),
      List.mapM.loop (fun _ => (Except.ok c : Except PyErr beta)) l acc =
        .ok (acc.reverse ++ List.replicate l.length c) := by
  intro l
  induction l with
  | nil => intro acc; simp [List.mapM.loop]; rfl
  | cons a t ih =>
      intro acc
      rw [List.mapM.loop]
      show List.mapM.loop (fun _ => (Except.ok c : Except PyErr beta)) t (c :: acc) = _
      rw [ih (c :: acc)]
      simp [List.replicate_succ]

theorem sum_replicate_set (p v : ℚ) :
    ∀ (n cur : Nat), cur < n →
      ((List.replicate n p).set cur v).sum = (n : ℚ) * p - p + v := by
  intro n
  induction n with
  | zero => intro cur h; omega
  | succ m ih =>
      intro cur hcur
      cases cur with
      | zero =>
          simp [List.replicate_succ, List.sum_cons, List.sum_replicate]
          ring
      | succ k =>
          have hk : k < m := by omega
          rw [List.replicate_succ, List.set_cons_succ, List.sum_cons, ih k hk]
          push_cast
          ring

theorem alter_langtok_train_sampling :
    ∀ (args : TaskArgs) (dicts : String → Dictionary) (se : Option Nat)
      (sl : Option String) (t : String) (tgt_langs : List String),
      args.encoder_langtok = none → args.decoder_langtok = true →
      t ∈ tgt_langs → 2 ≤ tgt_langs.length →
      alter_dataset_langtok args dicts se sl none (some t) tgt_langs "train" =
        .ok (.transformed none none none none
          (some (tgt_langs.map (fun _ => (dicts (sl.getD "")).eos_index)))
          (some ((List.replicate tgt_langs.length
            (args.sample_tag_prob / ((tgt_langs.length : ℚ) - 1))).set
            (tgt_langs.indexOf t) (1 - args.sample_tag_prob)))) := by
  intro args dicts se sl t tgt_langs henc hdec hmem hn
  have hz : ¬ ((tgt_langs.length : ℤ) - 1 = 0) := by omega
  have hc : optMem (some t) tgt_langs = true := by simp [optMem, hmem]
  rw [alter_dataset_langtok]
  simp [henc, hdec, hc, hz, get_encoder_langtok]
  rw [mapM_loop_ok_const]
  simp

/-- C7: on the training split with the target language among the eligible
targets, the sampled source-boundary-token distribution assigns
`1 - sample_tag_prob` at the true target's position and
`sample_tag_prob / (n - 1)` at each of the other `n - 1` positions, the
probabilities summing to `1` whenever at least two eligible targets are
configured; with exactly one eligible target the renormalization divides
by zero (`ZeroDivisionError`). -/
theorem C7_sample_tag_distribution :
    (∀ (args : TaskArgs) (dicts : String → Dictionary) (se : Option Nat)
      (sl : Option String) (t : String) (tgt_langs : List String),
      args.encoder_langtok = none → args.decoder_langtok = true →
      t ∈ tgt_langs → 2 ≤ tgt_langs.length →
      alter_dataset_langtok args dicts se sl none (some t) tgt_langs "train" =
        .ok (.transformed none none none none
          (some (tgt_langs.map (fun _ => (dicts (sl.getD "")).eos_index)))
          (some ((List.replicate tgt_langs.length
            (args.sample_tag_prob / ((tgt_langs.length : ℚ) - 1))).set
            (tgt_langs.indexOf t) (1 - args.sample_tag_prob))))) ∧
    (∀ (stp : ℚ) (t : String) (tgt_langs : List String),
      t ∈ tgt_langs → 2 ≤ tgt_langs.length →
      ((List.replicate tgt_langs.length (stp / ((tgt_langs.length : ℚ) - 1))).set
          (tgt_langs.indexOf t) (1 - stp)).length = tgt_langs.length ∧
      ((List.replicate tgt_langs.length (stp / ((tgt_langs.length : ℚ) - 1))).set
          (tgt_langs.indexOf t) (1 - stp)).getD (tgt_langs.indexOf t) 0 = 1 - stp ∧
      (∀ i < tgt_langs.length, i ≠ tgt_langs.indexOf t →
        ((List.replicate tgt_langs.length (stp / ((tgt_langs.length : ℚ) - 1))).set
            (tgt_langs.indexOf t) (1 - stp)).getD i 0 =
          stp / ((tgt_langs.length : ℚ) - 1)) ∧
      ((List.replicate tgt_langs.length (stp / ((tgt_langs.length : ℚ) - 1))).set
          (tgt_langs.indexOf t) (1 - stp)).sum = 1) ∧
    (∀ (args : TaskArgs) (dicts : String → Dictionary) (se : Option Nat)
      (sl : Option String) (t : String),
      args.encoder_langtok = none → args.decoder_langtok = true →
      alter_dataset_langtok args dicts se sl none (some t) [t] "train" =
        .error .zeroDivisionError) := by
  refine ⟨alter_langtok_train_sampling, ?_, ?_⟩
  · intro stp t tgt_langs hmem hn
    have hcur : tgt_langs.indexOf t < tgt_langs.length :=
      List.indexOf_lt_length.mpr hmem
    have hlen : ((List.replicate tgt_langs.length (stp / ((tgt_langs.length : ℚ) - 1))).set
        (tgt_langs.indexOf t) (1 - stp)).length = tgt_langs.length := by
      simp
    have hqne : ((tgt_langs.length : ℚ) - 1) ≠ 0 := by
      intro h0
      have h1 : (tgt_langs.length : ℚ) = 1 := by linarith
      have h2 : tgt_langs.length = 1 := by exact_mod_cast h1
      omega
    refine ⟨hlen, ?_, ?_, ?_⟩
    · rw [List.getD_eq_getElem _ _ (by rw [hlen]; exact hcur)]
      simp
    · intro i hi hne
      rw [List.getD_eq_getElem _ _ (by rw [hlen]; exact hi)]
      rw [List.getElem_set_ne (by omega)]
      simp
    · rw [sum_replicate_set _ _ _ _ hcur]
      field_simp
      ring
  · intro args dicts se sl t henc hdec
    have hc : optMem (some t) [t] = true := by simp [optMem]
    rw [alter_dataset_langtok]
    simp [henc, hdec, hc]
    rfl

/-- Witness for C7: three eligible targets `[de, fr, cs]`, true target
`de`, `sample_tag_prob = 3/10`: the distribution is `[7/10, 3/20, 3/20]`;
with the single eligible target `[de]` the same call raises
`ZeroDivisionError`. -/
theorem C7_sample_tag_distribution_witness :
    alter_dataset_langtok ⟨none, true, 3 / 10, false, 0⟩ (fun _ => ⟨[], 0, 1, 2⟩)
        (some 1) (some "en") none (some "de") ["de", "fr", "cs"] "train" =
      .ok (.transformed none none none none
        (some (["de", "fr", "cs"].map (fun _ => 1)))
        (some ((List.replicate 3 ((3 / 10 : ℚ) / ((3 : ℚ) - 1))).set 0 (1 - 3 / 10)))) ∧
    alter_dataset_langtok ⟨none, true, 3 / 10, false, 0⟩ (fun _ => ⟨[], 0, 1, 2⟩)
        (some 1) (some "en") none (some "de") ["de"] "train" =
      .error .zeroDivisionError := by
  constructor
  · have h := C7_sample_tag_distribution.1 ⟨none, true, 3 / 10, false, 0⟩
      (fun _ => ⟨[], 0, 1, 2⟩) (some 1) (some "en") "de" ["de", "fr", "cs"]
      rfl rfl (by decide) (by decide)
    exact h
  · exact C7_sample_tag_distribution.2.2 ⟨none, true, 3 / 10, false, 0⟩
      (fun _ => ⟨[], 0, 1, 2⟩) (some 1) (some "en") "de" rfl rfl

theorem btGenerators_mem (targs : TaskArgs) (dicts : String → Dictionary)
    (margs : ModelArgs) :
    ∀ (l : List String) (gens : List (String × SeqGenCfg))
      (bts : List (String × BacktranslatorCfg)),
      btGenerators targs dicts margs l = .ok (gens, bts) →
      ∀ lp ∈ l, ∃ tok,
        get_decoder_langtok targs dicts (srcOf lp) = .ok tok ∧
        (tgtOf lp ++ "-" ++ srcOf lp,
          (⟨srcOf lp, margs.bt_beam_size, margs.bt_max_len_a, margs.bt_max_len_b⟩ :
            SeqGenCfg)) ∈ gens ∧
        (lp, (⟨tgtOf lp ++ "-" ++ srcOf lp, tok,
          ⟨srcOf lp, margs.bt_beam_size, margs.bt_max_len_a, margs.bt_max_len_b⟩,
          targs.sampling, targs.sampling_topk⟩ :
            BacktranslatorCfg)) ∈ bts := by
  intro l
  induction l with
  | nil => intro gens bts h lp hlp; cases hlp
  | cons lp0 rest ih =>
      intro gens bts h lp hlp
      rw [btGenerators] at h
      cases hd : get_decoder_langtok targs dicts (srcOf lp0) with
      | error e => rw [hd] at h; cases h
      | ok tok0 =>
          rw [hd] at h
          cases hr : btGenerators targs dicts margs rest with
          | error e => rw [hr] at h; cases h
          | ok p =>
              rw [hr] at h
              cases h
              rcases List.mem_cons.mp hlp with heq | hmem
              · subst heq
                exact ⟨tok0, hd, List.mem_cons_self _ _, List.mem_cons_self _ _⟩
              · rcases ih p.1 p.2 (by rw [hr]) lp hmem with ⟨tok, htok, hg, hb⟩
                exact ⟨tok, htok, List.mem_cons_of_mem _ hg, List.mem_cons_of_mem _ hb⟩

/-- C4: on a successfully loaded training split, the composite dataset has
one `"bt:" + lang_pair` entry per configured pair, wrapping the pair's
target-language monolingual dataset with the pair's backtranslator and
parallel collater; and when `build_model` succeeds in training mode, every
configured pair `src-tgt` has a backtranslator closure bound to the
reverse sub-model key `tgt-src`, whose sequence generator uses `src`'s
dictionary, the configured `bt-beam-size` / `bt-max-len-a` /
`bt-max-len-b`, and whose bos token is the decoder language token of
`src`. -/
theorem C4_bt_dataset_and_generators :
    (∀ (ex : String → Bool) (data_path : String) (lang_pairs : List String)
        (split : String) (l : List (String × DatasetEntry)),
      pyStartswith split "train" = true →
      bt_load_dataset ex data_path lang_pairs split = .ok l →
      ∀ lp ∈ lang_pairs, (get_bt_dataset_key lp, .bt (tgtOf lp) lp lp) ∈ l) ∧
    (∀ (lang_pairs : List String) (targs : TaskArgs) (dicts : String → Dictionary)
        (margs : ModelArgs) (is_multi : Bool) (gens : List (String × SeqGenCfg))
        (bts : List (String × BacktranslatorCfg)),
      (bt_build_model lang_pairs targs dicts margs true is_multi).result = .ok (gens, bts) →
      ∀ lp ∈ lang_pairs, ∃ tok,
        get_decoder_langtok targs dicts (srcOf lp) = .ok tok ∧
        (get_dds_bt_key lp,
          (⟨srcOf lp, margs.bt_beam_size, margs.bt_max_len_a, margs.bt_max_len_b⟩ :
            SeqGenCfg)) ∈ gens ∧
        (lp, (⟨get_dds_bt_key lp, tok,
          ⟨srcOf lp, margs.bt_beam_size, margs.bt_max_len_a, margs.bt_max_len_b⟩,
          targs.sampling, targs.sampling_topk⟩ :
            BacktranslatorCfg)) ∈ bts) := by
  constructor
  · intro ex data_path lang_pairs split l htrain hok lp hlp
    rw [bt_load_dataset, htrain] at hok
    by_cases hz : (findParallel ex data_path split lang_pairs).length = 0
    · rw [if_pos hz] at hok
      exact Except.noConfusion hok
    · rw [if_neg hz] at hok
      cases hm : btMonoCheck ex data_path split
          ((findParallel ex data_path split lang_pairs).map Prod.fst) lang_pairs with
      | error e =>
          rw [hm] at hok
          exact Except.noConfusion hok
      | ok u =>
          rw [hm] at hok
          have hl : (findParallel ex data_path split lang_pairs).map
              (fun q => (q.1, DatasetEntry.parallel q.2)) ++
              lang_pairs.map (fun lp =>
                (get_bt_dataset_key lp, DatasetEntry.bt (tgtOf lp) lp lp)) = l :=
            Except.ok.inj hok
          rw [← hl]
          apply List.mem_append_right
          exact List.mem_map.mpr ⟨lp, hlp, rfl⟩
  · intro lang_pairs targs dicts margs is_multi gens bts hres lp hlp
    cases is_multi with
    | false => rw [bt_build_model] at hres; cases hres
    | true =>
        rw [bt_build_model] at hres
        simp only [Bool.not_true, Bool.false_eq_true, if_false, if_true] at hres
        rcases btGenerators_mem targs dicts margs lang_pairs gens bts hres lp hlp with
          ⟨tok, htok, hg, hb⟩
        exact ⟨tok, htok, hg, hb⟩

/-- Witness for C4: pairs `en-de` (files under the `(src,tgt)` naming) and
`fr-de` (files under the `(tgt,src)` naming) on the `train` split, and a
one-pair build with beam size 5 and length coefficients 11/10 and 10. -/
theorem C4_bt_dataset_and_generators_witness :
    ("bt:en-de", DatasetEntry.bt "de" "en-de" "en-de") ∈
      ([("en-de", DatasetEntry.parallel .srcTgt), ("fr-de", DatasetEntry.parallel .tgtSrc),
        ("bt:en-de", DatasetEntry.bt "de" "en-de" "en-de"),
        ("bt:fr-de", DatasetEntry.bt "de" "fr-de" "fr-de")] :
        List (String × DatasetEntry)) ∧
    (∃ tok, get_decoder_langtok ⟨none, false, 0, false, 0⟩ (fun _ => ⟨[], 0, 1, 2⟩)
        (srcOf "en-de") = .ok tok ∧
      (get_dds_bt_key "en-de", (⟨srcOf "en-de", 5, 11 / 10, 10⟩ : SeqGenCfg)) ∈
        ([("de-en", ⟨"en", 5, 11 / 10, 10⟩)] : List (String × SeqGenCfg)) ∧
      ("en-de", (⟨get_dds_bt_key "en-de", tok, ⟨srcOf "en-de", 5, 11 / 10, 10⟩,
        false, 0⟩ : BacktranslatorCfg)) ∈
        ([("en-de", ⟨"de-en", 1, ⟨"en", 5, 11 / 10, 10⟩, false, 0⟩)] :
          List (String × BacktranslatorCfg))) :=
  ⟨C4_bt_dataset_and_generators.1
      (fun s => ["data/train.en-de.en", "data/train.de-fr.fr", "data/train.de-None.de",
        "data/train.fr-None.fr"].contains s)
      "data" ["en-de", "fr-de"] "train" _ (by decide) (by decide) "en-de" (by decide),
   C4_bt_dataset_and_generators.2 ["en-de"] ⟨none, false, 0, false, 0⟩
      (fun _ => ⟨[], 0, 1, 2⟩) ⟨["x"], some "src", true, 5, 11 / 10, 10⟩ true
      [("de-en", ⟨"en", 5, 11 / 10, 10⟩)]
      [("en-de", ⟨"de-en", 1, ⟨"en", 5, 11 / 10, 10⟩, false, 0⟩)]
      (by decide) "en-de" (by decide)⟩

theorem mem_findParallel_of_srcTgt {ex : String → Bool} {data_path split : String}
    {lang_pairs : List String} {lp : String} (hlp : lp ∈ lang_pairs)
    (h : split_exists ex data_path split (srcOf lp) (some (tgtOf lp)) (srcOf lp) = true) :
    (lp, PrefixChoice.srcTgt) ∈ findParallel ex data_path split lang_pairs := by
  rw [findParallel, List.mem_filterMap]
  exact ⟨lp, hlp, by rw [if_pos h]⟩

theorem mem_findParallel_of_tgtSrc {ex : String → Bool} {data_path split : String}
    {lang_pairs : List String} {lp : String} (hlp : lp ∈ lang_pairs)
    (hs : split_exists ex data_path split (srcOf lp) (some (tgtOf lp)) (srcOf lp) = false)
    (h : split_exists ex data_path split (tgtOf lp) (some (srcOf lp)) (srcOf lp) = true) :
    (lp, PrefixChoice.tgtSrc) ∈ findParallel ex data_path split lang_pairs := by
  rw [findParallel, List.mem_filterMap]
  refine ⟨lp, hlp, ?_⟩
  rw [if_neg (by simp [hs]), if_pos h]

theorem mem_findParallel_files {ex : String → Bool} {data_path split : String}
    {lang_pairs : List String} {lp : String} {c : PrefixChoice}
    (h : (lp, c) ∈ findParallel ex data_path split lang_pairs) :
    lp ∈ lang_pairs ∧
      (split_exists ex data_path split (srcOf lp) (some (tgtOf lp)) (srcOf lp) = true ∨
       split_exists ex data_path split (tgtOf lp) (some (srcOf lp)) (srcOf lp) = true) := by
  rw [findParallel, List.mem_filterMap] at h
  rcases h with ⟨a, ha, hf⟩
  by_cases h1 : split_exists ex data_path split (srcOf a) (some (tgtOf a)) (srcOf a) = true
  · rw [if_pos h1] at hf
    cases hf
    exact ⟨ha, Or.inl h1⟩
  · rw [if_neg h1] at hf
    by_cases h2 : split_exists ex data_path split (tgtOf a) (some (srcOf a)) (srcOf a) = true
    · rw [if_pos h2] at hf
      cases hf
      exact ⟨ha, Or.inr h2⟩
    · rw [if_neg h2] at hf
      cases hf

theorem findParallel_fst_sub {ex : String → Bool} {data_path split : String}
    {lang_pairs : List String} {lp : String}
    (h : lp ∈ (findParallel ex data_path split lang_pairs).map Prod.fst) :
    split_exists ex data_path split (srcOf lp) (some (tgtOf lp)) (srcOf lp) = true ∨
    split_exists ex data_path split (tgtOf lp) (some (srcOf lp)) (srcOf lp) = true := by
  rcases List.mem_map.mp h with ⟨⟨a, c⟩, hm, he⟩
  cases he
  exact (mem_findParallel_files hm).2

theorem findParallel_all_found {ex : String → Bool} {data_path split : String} :
    ∀ {lang_pairs : List String},
      (∀ lp ∈ lang_pairs,
        split_exists ex data_path split (srcOf lp) (some (tgtOf lp)) (srcOf lp) = true ∨
        split_exists ex data_path split (tgtOf lp) (some (srcOf lp)) (srcOf lp) = true) →
      (findParallel ex data_path split lang_pairs).map Prod.fst = lang_pairs := by
  intro lang_pairs
  induction lang_pairs with
  | nil => intro h; rfl
  | cons lp rest ih =>
      intro h
      have hrest := ih (fun a ha => h a (List.mem_cons_of_mem _ ha))
      rcases h lp (List.mem_cons_self _ _) with h1 | h2
      · rw [findParallel] at hrest ⊢
        rw [List.filterMap_cons, if_pos h1]
        simpa using hrest
      · rw [findParallel] at hrest ⊢
        rw [List.filterMap_cons]
        by_cases h1 : split_exists ex data_path split (srcOf lp) (some (tgtOf lp)) (srcOf lp) = true
        · rw [if_pos h1]
          simpa using hrest
        · rw [if_neg h1, if_pos h2]
          simpa using hrest

theorem btMonoCheck_missing_mono {ex : String → Bool} {data_path split : String}
    {found : List String} :
    ∀ {rest : List String},
      (∀ lp ∈ rest, found.contains lp = true) →
      (∃ lp ∈ rest, split_exists ex data_path split (tgtOf lp) none (tgtOf lp) = false) →
      btMonoCheck ex data_path split found rest = .error .fileNotFoundError := by
  intro rest
  induction rest with
  | nil => intro _ h; rcases h with ⟨lp, h, _⟩; cases h
  | cons lp0 rest ih =>
      intro hcont hex
      rw [btMonoCheck]
      by_cases hm : split_exists ex data_path split (tgtOf lp0) none (tgtOf lp0) = true
      · rw [if_neg (by simp [hm])]
        rw [if_neg (by simpa using hcont lp0 (List.mem_cons_self _ _))]
        apply ih (fun a ha => hcont a (List.mem_cons_of_mem _ ha))
        rcases hex with ⟨lp, hlp, hmono⟩
        rcases List.mem_cons.mp hlp with heq | hmem
        · subst heq; rw [hm] at hmono; cases hmono
        · exact ⟨lp, hmem, hmono⟩
      · have hm' : split_exists ex data_path split (tgtOf lp0) none (tgtOf lp0) = false := by
          cases hv : split_exists ex data_path split (tgtOf lp0) none (tgtOf lp0) with
          | false => rfl
          | true => exact absurd hv hm
        rw [if_pos (by simp [hm'])]

theorem btMonoCheck_missing_parallel {ex : String → Bool} {data_path split : String}
    {found : List String} :
    ∀ {rest : List String},
      (∀ lp ∈ rest, split_exists ex data_path split (tgtOf lp) none (tgtOf lp) = true) →
      (∃ lp ∈ rest, found.contains lp = false) →
      btMonoCheck ex data_path split found rest = .error .keyError := by
  intro rest
  induction rest with
  | nil => intro _ h; rcases h with ⟨lp, h, _⟩; cases h
  | cons lp0 rest ih =>
      intro hmono hex
      rw [btMonoCheck]
      rw [if_neg (by simp [hmono lp0 (List.mem_cons_self _ _)])]
      by_cases hc : found.contains lp0 = true
      · rw [if_neg (by simpa using hc)]
        apply ih (fun a ha => hmono a (List.mem_cons_of_mem _ ha))
        rcases hex with ⟨lp, hlp, hcf⟩
        rcases List.mem_cons.mp hlp with heq | hmem
        · subst heq; rw [hc] at hcf; cases hcf
        · exact ⟨lp, hmem, hcf⟩
      · have hc' : found.contains lp0 = false := by
          cases hv : found.contains lp0 with
          | false => rfl
          | true => exact absurd hv hc
        rw [if_pos (by rw [hc']; rfl)]

theorem btMonoCheck_all_ok {ex : String → Bool} {data_path split : String}
    {found : List String} :
    ∀ {rest : List String},
      (∀ lp ∈ rest, split_exists ex data_path split (tgtOf lp) none (tgtOf lp) = true) →
      (∀ lp ∈ rest, found.contains lp = true) →
      btMonoCheck ex data_path split found rest = .ok () := by
  intro rest
  induction rest with
  | nil => intro _ _; rfl
  | cons lp0 rest ih =>
      intro hmono hcont
      rw [btMonoCheck]
      rw [if_neg (by simp [hmono lp0 (List.mem_cons_self _ _)])]
      rw [if_neg (by simpa using hcont lp0 (List.mem_cons_self _ _))]
      exact ih (fun a ha => hmono a (List.mem_cons_of_mem _ ha))
        (fun a ha => hcont a (List.mem_cons_of_mem _ ha))

theorem bt_load_dataset_ok_shape {ex : String → Bool} {data_path : String}
    {lang_pairs : List String} {split : String} {l : List (String × DatasetEntry)}
    (hok : bt_load_dataset ex data_path lang_pairs split = .ok l) :
    l = (findParallel ex data_path split lang_pairs).map
        (fun q => (q.1, DatasetEntry.parallel q.2)) ++
      (if pyStartswith split "train" = true then
        lang_pairs.map (fun lp => (get_bt_dataset_key lp, DatasetEntry.bt (tgtOf lp) lp lp))
      else []) := by
  rw [bt_load_dataset] at hok
  by_cases hz : (findParallel ex data_path split lang_pairs).length = 0
  · rw [if_pos hz] at hok
    exact Except.noConfusion hok
  · rw [if_neg hz] at hok
    cases htr : pyStartswith split "train" with
    | true =>
        rw [htr] at hok
        simp only [if_true]
        cases hm : btMonoCheck ex data_path split
            ((findParallel ex data_path split lang_pairs).map Prod.fst) lang_pairs with
        | error e => rw [hm] at hok; exact Except.noConfusion hok
        | ok u => rw [hm] at hok; exact (Except.ok.inj hok).symm
    | false =>
        rw [htr] at hok
        simp only [Bool.false_eq_true, if_false, List.append_nil]
        exact (Except.ok.inj hok).symm

theorem contains_of_mem {l : List String} {a : String} (h : a ∈ l) :
    l.contains a = true :=
  List.contains_iff_exists_mem_beq.mpr ⟨a, h, by simp⟩

/-- C5 (amended): per configured pair the loader looks for parallel files
under the `(src,tgt)` naming first, then under `(tgt,src)`; a pair with
neither naming is skipped (absent from the composite) and, on a
non-training split, the skip does not fail the split; if no configured
pair has parallel data the split fails with `FileNotFoundError`; on a
training split a missing monolingual file `{split}.{tgt}-None.{tgt}` is
fatal (`FileNotFoundError`); but on a training split a pair lacking
parallel data is *also* fatal — building its back-translation collater
reads `src_datasets[lang_pair]` and raises `KeyError` — rather than being
silently skipped. -/
theorem C5_missing_file_policy :
    (∀ (ex : String → Bool) (data_path : String) (lang_pairs : List String)
        (split : String),
      (∀ lp ∈ lang_pairs,
        split_exists ex data_path split (srcOf lp) (some (tgtOf lp)) (srcOf lp) = false ∧
        split_exists ex data_path split (tgtOf lp) (some (srcOf lp)) (srcOf lp) = false) →
      bt_load_dataset ex data_path lang_pairs split = .error .fileNotFoundError) ∧
    (∀ (ex : String → Bool) (data_path : String) (lang_pairs : List String)
        (split : String) (l : List (String × DatasetEntry)),
      bt_load_dataset ex data_path lang_pairs split = .ok l →
      ∀ lp ∈ lang_pairs,
        (split_exists ex data_path split (srcOf lp) (some (tgtOf lp)) (srcOf lp) = true →
          (lp, DatasetEntry.parallel .srcTgt) ∈ l) ∧
        (split_exists ex data_path split (srcOf lp) (some (tgtOf lp)) (srcOf lp) = false →
         split_exists ex data_path split (tgtOf lp) (some (srcOf lp)) (srcOf lp) = true →
          (lp, DatasetEntry.parallel .tgtSrc) ∈ l) ∧
        (split_exists ex data_path split (srcOf lp) (some (tgtOf lp)) (srcOf lp) = false →
         split_exists ex data_path split (tgtOf lp) (some (srcOf lp)) (srcOf lp) = false →
          ∀ c, (lp, DatasetEntry.parallel c) ∉ l)) ∧
    (∀ (ex : String → Bool) (data_path : String) (lang_pairs : List String)
        (split : String) (lp : String),
      pyStartswith split "train" = false → lp ∈ lang_pairs →
      (split_exists ex data_path split (srcOf lp) (some (tgtOf lp)) (srcOf lp) = true ∨
       split_exists ex data_path split (tgtOf lp) (some (srcOf lp)) (srcOf lp) = true) →
      ∃ l, bt_load_dataset ex data_path lang_pairs split = .ok l) ∧
    (∀ (ex : String → Bool) (data_path : String) (lang_pairs : List String)
        (split : String),
      pyStartswith split "train" = true →
      (∀ lp ∈ lang_pairs,
        split_exists ex data_path split (srcOf lp) (some (tgtOf lp)) (srcOf lp) = true ∨
        split_exists ex data_path split (tgtOf lp) (some (srcOf lp)) (srcOf lp) = true) →
      (∃ lp ∈ lang_pairs,
        split_exists ex data_path split (tgtOf lp) none (tgtOf lp) = false) →
      bt_load_dataset ex data_path lang_pairs split = .error .fileNotFoundError) ∧
    (∀ (ex : String → Bool) (data_path : String) (lang_pairs : List String)
        (split : String),
      pyStartswith split "train" = true →
      (∀ lp ∈ lang_pairs,
        split_exists ex data_path split (tgtOf lp) none (tgtOf lp) = true) →
      (∃ lp ∈ lang_pairs,
        split_exists ex data_path split (srcOf lp) (some (tgtOf lp)) (srcOf lp) = true ∨
        split_exists ex data_path split (tgtOf lp) (some (srcOf lp)) (srcOf lp) = true) →
      (∃ lp ∈ lang_pairs,
        split_exists ex data_path split (srcOf lp) (some (tgtOf lp)) (srcOf lp) = false ∧
        split_exists ex data_path split (tgtOf lp) (some (srcOf lp)) (srcOf lp) = false) →
      bt_load_dataset ex data_path lang_pairs split = .error .keyError) := by
  refine ⟨?_, ?_, ?_, ?_, ?_⟩
  · -- no pair has data: FileNotFoundError
    intro ex data_path lang_pairs split hnone
    have hfp : findParallel ex data_path split lang_pairs = [] := by
      rw [findParallel, List.filterMap_eq_nil]
      intro lp hlp
      rw [if_neg (by simp [(hnone lp hlp).1]), if_neg (by simp [(hnone lp hlp).2])]
    rw [bt_load_dataset, hfp]
    rfl
  · -- ordering and skipping
    intro ex data_path lang_pairs split l hok lp hlp
    have hshape := bt_load_dataset_ok_shape hok
    refine ⟨?_, ?_, ?_⟩
    · intro h1
      rw [hshape]
      exact List.mem_append_left _
        (List.mem_map.mpr ⟨(lp, .srcTgt), mem_findParallel_of_srcTgt hlp h1, rfl⟩)
    · intro h1 h2
      rw [hshape]
      exact List.mem_append_left _
        (List.mem_map.mpr ⟨(lp, .tgtSrc), mem_findParallel_of_tgtSrc hlp h1 h2, rfl⟩)
    · intro h1 h2 c hmem
      rw [hshape] at hmem
      rcases List.mem_append.mp hmem with hm | hm
      · rcases List.mem_map.mp hm with ⟨⟨a, c'⟩, hac, he⟩
        have ha : a = lp := congrArg Prod.fst he
        subst ha
        rcases (mem_findParallel_files hac).2 with hf | hf
        · rw [h1] at hf; exact Bool.noConfusion hf
        · rw [h2] at hf; exact Bool.noConfusion hf
      · cases htr : pyStartswith split "train" with
        | true =>
            rw [htr] at hm
            simp only [if_true] at hm
            rcases List.mem_map.mp hm with ⟨a, _, he⟩
            exact DatasetEntry.noConfusion (congrArg Prod.snd he)
        | false =>
            rw [htr] at hm
            simp only [Bool.false_eq_true, if_false] at hm
            cases hm
  · -- non-training split: a found pair suffices, missing pairs don't fail it
    intro ex data_path lang_pairs split lp htr hlp hfile
    have hmem : lp ∈ (findParallel ex data_path split lang_pairs).map Prod.fst := by
      rcases hfile with h1 | h1
      · exact List.mem_map.mpr ⟨(lp, .srcTgt), mem_findParallel_of_srcTgt hlp h1, rfl⟩
      · by_cases h0 : split_exists ex data_path split (srcOf lp) (some (tgtOf lp)) (srcOf lp) = true
        · exact List.mem_map.mpr ⟨(lp, .srcTgt), mem_findParallel_of_srcTgt hlp h0, rfl⟩
        · have h0' : split_exists ex data_path split (srcOf lp) (some (tgtOf lp)) (srcOf lp) = false := by
            cases hv : split_exists ex data_path split (srcOf lp) (some (tgtOf lp)) (srcOf lp) with
            | false => rfl
            | true => exact absurd hv h0
          exact List.mem_map.mpr ⟨(lp, .tgtSrc), mem_findParallel_of_tgtSrc hlp h0' h1, rfl⟩
    have hz : ¬ (findParallel ex data_path split lang_pairs).length = 0 := by
      intro h0
      rw [List.length_eq_zero] at h0
      rw [h0] at hmem
      cases hmem
    refine ⟨(findParallel ex data_path split lang_pairs).map
      (fun q => (q.1, DatasetEntry.parallel q.2)), ?_⟩
    rw [bt_load_dataset, if_neg hz, htr]
    rfl
  · -- training split, all parallel present, a monolingual file missing
    intro ex data_path lang_pairs split htr hall hex
    have hfst := @findParallel_all_found ex data_path split lang_pairs hall
    have hz : ¬ (findParallel ex data_path split lang_pairs).length = 0 := by
      intro h0
      rcases hex with ⟨lp, hlp, _⟩
      rw [List.length_eq_zero] at h0
      rw [h0] at hfst
      rw [← hfst] at hlp
      cases hlp
    have hm : btMonoCheck ex data_path split
        ((findParallel ex data_path split lang_pairs).map Prod.fst) lang_pairs =
        .error .fileNotFoundError := by
      apply btMonoCheck_missing_mono
      · intro a ha
        rw [hfst]
        exact contains_of_mem ha
      · exact hex
    rw [bt_load_dataset, if_neg hz, htr, hm]
    rfl
  · -- training split, all monolingual present, a pair without parallel data
    intro ex data_path lang_pairs split htr hmono hsome hnone
    have hz : ¬ (findParallel ex data_path split lang_pairs).length = 0 := by
      intro h0
      rw [List.length_eq_zero] at h0
      rcases hsome with ⟨lp, hlp, hfile⟩
      have : lp ∈ (findParallel ex data_path split lang_pairs).map Prod.fst := by
        rcases hfile with h1 | h1
        · exact List.mem_map.mpr ⟨(lp, .srcTgt), mem_findParallel_of_srcTgt hlp h1, rfl⟩
        · by_cases h0' : split_exists ex data_path split (srcOf lp) (some (tgtOf lp)) (srcOf lp) = true
          · exact List.mem_map.mpr ⟨(lp, .srcTgt), mem_findParallel_of_srcTgt hlp h0', rfl⟩
          · have h0f : split_exists ex data_path split (srcOf lp) (some (tgtOf lp)) (srcOf lp) = false := by
              cases hv : split_exists ex data_path split (srcOf lp) (some (tgtOf lp)) (srcOf lp) with
              | false => rfl
              | true => exact absurd hv h0'
            exact List.mem_map.mpr ⟨(lp, .tgtSrc), mem_findParallel_of_tgtSrc hlp h0f h1, rfl⟩
      rw [h0] at this
      cases this
    have hm : btMonoCheck ex data_path split
        ((findParallel ex data_path split lang_pairs).map Prod.fst) lang_pairs =
        .error .keyError := by
      apply btMonoCheck_missing_parallel
      · exact hmono
      · rcases hnone with ⟨lp, hlp, hf1, hf2⟩
        refine ⟨lp, hlp, ?_⟩
        cases hv : ((findParallel ex data_path split lang_pairs).map Prod.fst).contains lp with
        | false => rfl
        | true =>
            exfalso
            have : lp ∈ (findParallel ex data_path split lang_pairs).map Prod.fst := by
              rcases List.contains_iff_exists_mem_beq.mp hv with ⟨a, ha, hbeq⟩
              have : lp = a := by simpa using hbeq
              rw [this]
              exact ha
            rcases findParallel_fst_sub this with h | h
            · rw [hf1] at h; exact Bool.noConfusion h
            · rw [hf2] at h; exact Bool.noConfusion h
    rw [bt_load_dataset, if_neg hz, htr, hm]
    rfl

/-- Counterexample for C5 as stated: with pair `fr-de` having no parallel
data but all monolingual files present, the `train` split raises `KeyError`
instead of silently skipping the pair — while the identical situation on
the `valid` split does skip it and succeeds. -/
theorem C5_train_skip_counterexample :
    bt_load_dataset
        (fun s => ["data/train.en-de.en", "data/train.de-None.de"].contains s)
        "data" ["en-de", "fr-de"] "train" = .error .keyError ∧
    bt_load_dataset (fun s => ["data/valid.en-de.en"].contains s)
        "data" ["en-de", "fr-de"] "valid" =
      .ok [("en-de", DatasetEntry.parallel .srcTgt)] := by
  refine ⟨by decide, by decide⟩

/-- Witness for C5: concrete splits exercising every branch of the policy. -/
theorem C5_missing_file_policy_witness :
    bt_load_dataset (fun _ => false) "data" ["en-de"] "valid" =
      .error .fileNotFoundError ∧
    (∃ l, bt_load_dataset (fun s => ["data/valid.en-de.en"].contains s)
      "data" ["en-de", "fr-de"] "valid" = .ok l) ∧
    bt_load_dataset
        (fun s => ["data/train.en-de.en", "data/train.de-fr.fr"].contains s)
        "data" ["en-de", "fr-de"] "train" = .error .fileNotFoundError ∧
    bt_load_dataset
        (fun s => ["data/train.en-de.en", "data/train.de-None.de",
          "data/train.fr-None.fr"].contains s)
        "data" ["en-de", "fr-de"] "train" = .error .keyError ∧
    ("en-de", DatasetEntry.parallel .srcTgt) ∈
      ([("en-de", DatasetEntry.parallel .srcTgt)] : List (String × DatasetEntry)) :=
  ⟨C5_missing_file_policy.1 (fun _ => false) "data" ["en-de"] "valid"
      (by decide),
   C5_missing_file_policy.2.2.1 (fun s => ["data/valid.en-de.en"].contains s)
      "data" ["en-de", "fr-de"] "valid" "en-de" (by decide) (by decide)
      (Or.inl (by decide)),
   C5_missing_file_policy.2.2.2.1
      (fun s => ["data/train.en-de.en", "data/train.de-fr.fr"].contains s)
      "data" ["en-de", "fr-de"] "train" (by decide)
      (by decide) ⟨"en-de", by decide, by decide⟩,
   C5_missing_file_policy.2.2.2.2
      (fun s => ["data/train.en-de.en", "data/train.de-None.de",
        "data/train.fr-None.fr"].contains s)
      "data" ["en-de", "fr-de"] "train" (by decide) (by decide)
      ⟨"en-de", by decide, Or.inl (by decide)⟩
      ⟨"fr-de", by decide, by decide, by decide⟩,
   (C5_missing_file_policy.2.1 (fun s => ["data/valid.en-de.en"].contains s)
      "data" ["en-de", "fr-de"] "valid" [("en-de", DatasetEntry.parallel .srcTgt)]
      (by decide) "en-de" (by decide)).1 (by decide)⟩

theorem mtTrainGo_filter (sample : List (String × PyVal)) (ignore_grad : Bool) :
    ∀ (pairs : List String) (acc : StepAcc),
      mtTrainGo sample ignore_grad acc pairs =
        mtTrainGo sample ignore_grad acc (pairs.filter (keptPair sample)) := by
  intro pairs
  induction pairs with
  | nil => intro acc; rfl
  | cons lp rest ih =>
      intro acc
      rw [List.filter_cons]
      cases hl : sample.lookup lp with
      | none =>
          rw [if_neg (by simp [keptPair, hl])]
          rw [mtTrainGo, hl]
          exact ih acc
      | some v =>
          cases v with
          | none =>
              rw [if_neg (by simp [keptPair, hl])]
              rw [mtTrainGo, hl]
              simp only [if_pos rfl]
              exact ih acc
          | batch n loss ss log =>
              by_cases hn : n = 0
              · subst hn
                rw [if_neg (by simp [keptPair, hl])]
                rw [mtTrainGo, hl]
                simp only [reduceCtorEq, if_neg, pyLen]
                exact ih acc
              · rw [if_pos (by simp [keptPair, hl, hn])]
                rw [mtTrainGo, mtTrainGo, hl]
                simp only [reduceCtorEq, if_neg, pyLen, criterionOn, hn]
                exact ih _
          | tuple f s =>
              rw [if_pos (by simp [keptPair, hl])]
              rw [mtTrainGo, mtTrainGo, hl]
              rfl

theorem mtTrainGo_ok (sample : List (String × PyVal)) (ignore_grad : Bool)
    (hgood : ∀ (k : String) (v : PyVal), sample.lookup k = some v →
      v = .none ∨ ∃ n loss ss log, v = .batch n loss ss log) :
    ∀ (pairs : List String) (acc : StepAcc),
      ∃ r, mtTrainGo sample ignore_grad acc pairs = .ok r := by
  intro pairs
  induction pairs with
  | nil => intro acc; exact ⟨acc, rfl⟩
  | cons lp rest ih =>
      intro acc
      rw [mtTrainGo]
      cases hl : sample.lookup lp with
      | none => exact ih acc
      | some v =>
          rcases hgood lp v hl with hv | ⟨n, loss, ss, log, hv⟩
          · subst hv
            simp only [if_pos rfl]
            exact ih acc
          · subst hv
            by_cases hn : n = 0
            · subst hn
              simp only [reduceCtorEq, if_neg, pyLen]
              exact ih acc
            · simp only [reduceCtorEq, if_neg, pyLen, criterionOn, hn]
              exact ih _

theorem forward_backward_skip {acc : StepAcc} {samples : PyVal} {key : String}
    {w : ℚ} {ig : Bool} (h : noneOrEmpty samples = true) :
    forward_backward acc samples key w ig = .ok acc := by
  cases samples with
  | none => rw [forward_backward]; simp
  | batch n loss ss log =>
      have hn : n = 0 := by simpa [noneOrEmpty] using h
      subst hn
      rw [forward_backward]
      simp [pyLen]
  | tuple f s => simp [noneOrEmpty] at h

theorem btParallelPass_skip (w : ℚ) (sample : List (String × PyVal)) (ig : Bool) :
    ∀ (pairs : List String) (acc : StepAcc),
      (∀ lp ∈ pairs, ∃ vp, sample.lookup lp = some vp ∧ noneOrEmpty vp = true) →
      btParallelPass w sample ig acc pairs = .ok acc := by
  intro pairs
  induction pairs with
  | nil => intro acc _; rfl
  | cons lp rest ih =>
      intro acc h
      rcases h lp (List.mem_cons_self _ _) with ⟨vp, hl, hne⟩
      have hd : dictGet sample lp = .ok vp := by rw [dictGet, hl]
      rw [btParallelPass, hd]
      show (match forward_backward acc vp lp w ig with
        | Except.error e => Except.error e
        | Except.ok acc => btParallelPass w sample ig acc rest) = Except.ok acc
      rw [forward_backward_skip hne]
      exact ih acc (fun a ha => h a (List.mem_cons_of_mem _ ha))

theorem btBtPass_skip (w : ℚ) (sample : List (String × PyVal)) (ig : Bool) :
    ∀ (pairs : List String) (acc : StepAcc),
      (∀ lp ∈ pairs, ∃ wv sv,
        sample.lookup (get_bt_dataset_key lp) = some (.tuple wv sv) ∧
        noneOrEmpty wv = true) →
      btBtPass w sample ig acc pairs = .ok acc := by
  intro pairs
  induction pairs with
  | nil => intro acc _; rfl
  | cons lp rest ih =>
      intro acc h
      rcases h lp (List.mem_cons_self _ _) with ⟨wv, sv, hl, hne⟩
      have hd : dictGet sample (get_bt_dataset_key lp) = .ok (.tuple wv sv) := by
        rw [dictGet, hl]
      rw [btBtPass, hd]
      show (match pyGetFst (.tuple wv sv) with
        | Except.error e => Except.error e
        | Except.ok v0 =>
            match forward_backward acc v0 (get_bt_dataset_key lp) w ig with
            | Except.error e => Except.error e
            | Except.ok acc => btBtPass w sample ig acc rest) = Except.ok acc
      rw [pyGetFst]
      show (match forward_backward acc wv (get_bt_dataset_key lp) w ig with
        | Except.error e => Except.error e
        | Except.ok acc => btBtPass w sample ig acc rest) = Except.ok acc
      rw [forward_backward_skip hne]
      exact ih acc (fun a ha => h a (List.mem_cons_of_mem _ ha))

/-- C9 (amended): the multilingual task's `train_step` and `valid_step`
skip every configured pair that is absent from the batch, mapped to
`None`, or empty — the result equals the run over the kept pairs only, and
no error is raised when the remaining values are well-formed batches.  The
back-translation task's `train_step` skips a pair only when the fetched
value is `None` or empty (both passes then leave the accumulators
untouched); a configured pair whose key is absent from the batch raises a
`KeyError` instead of being skipped. -/
theorem C9_pair_skipping :
    (∀ (sample : List (String × PyVal)) (ignore_grad : Bool) (pairs : List String),
      mt_train_step pairs sample ignore_grad =
        mt_train_step (pairs.filter (keptPair sample)) sample ignore_grad) ∧
    (∀ (sample : List (String × PyVal)) (pairs : List String),
      mt_valid_step pairs sample =
        mt_valid_step (pairs.filter (keptPair sample)) sample) ∧
    (∀ (sample : List (String × PyVal)) (ignore_grad : Bool) (pairs : List String),
      (∀ (k : String) (v : PyVal), sample.lookup k = some v →
        v = .none ∨ ∃ n loss ss log, v = .batch n loss ss log) →
      ∃ r, mt_train_step pairs sample ignore_grad = .ok r) ∧
    (∀ (sample : List (String × PyVal)) (st : LambdaState) (ignore_grad : Bool)
        (pairs : List String),
      (∀ lp ∈ pairs, ∃ vp, sample.lookup lp = some vp ∧ noneOrEmpty vp = true) →
      (∀ lp ∈ pairs, ∃ wv sv,
        sample.lookup (get_bt_dataset_key lp) = some (.tuple wv sv) ∧
        noneOrEmpty wv = true) →
      bt_train_step pairs st sample ignore_grad =
        .ok (⟨0, 0, []⟩, ⟨1, 1, st.lambda_denoising⟩)) ∧
    (∀ (sample : List (String × PyVal)) (st : LambdaState) (ignore_grad : Bool)
        (lp : String) (rest : List String),
      sample.lookup lp = Option.none →
      bt_train_step (lp :: rest) st sample ignore_grad = .error .keyError) := by
  refine ⟨?_, ?_, ?_, ?_, ?_⟩
  · intro sample ig pairs
    exact mtTrainGo_filter sample ig pairs _
  · intro sample pairs
    exact mtTrainGo_filter sample false pairs _
  · intro sample ig pairs hgood
    exact mtTrainGo_ok sample ig hgood pairs _
  · intro sample st ig pairs hpar hbt
    rw [bt_train_step]
    rw [btParallelPass_skip 1 sample ig pairs _ hpar]
    show (match btBtPass 1 sample ig (⟨0, 0, []⟩ : StepAcc) pairs with
      | Except.error e => (Except.error e : Except PyErr (StepAcc × LambdaState))
      | Except.ok acc => Except.ok (acc, (⟨1, 1, st.lambda_denoising⟩ : LambdaState))) =
      Except.ok ((⟨0, 0, []⟩ : StepAcc), (⟨1, 1, st.lambda_denoising⟩ : LambdaState))
    rw [btBtPass_skip 1 sample ig pairs _ hbt]
  · intro sample st ig lp rest hl
    rw [bt_train_step]
    have hd : dictGet sample lp = .error .keyError := by rw [dictGet, hl]
    rw [btParallelPass, hd]

/-- Counterexample for C9 as stated: the back-translation `train_step` on a
batch missing the configured pair `en-de` raises `KeyError` rather than
skipping the pair. -/
theorem C9_bt_absent_pair_counterexample :
    bt_train_step ["en-de"] ⟨0, 0, 0⟩ [] false = .error .keyError := by
  decide

/-- Witness for C9 on concrete batches. -/
theorem C9_pair_skipping_witness :
    (∃ r, mt_train_step ["en-de", "en-fr"] [("en-de", .batch 2 5 2 "l")] false = .ok r) ∧
    bt_train_step ["en-de"] ⟨0, 0, 0⟩
      [("en-de", PyVal.none), ("bt:en-de", .tuple PyVal.none PyVal.none)] false =
      .ok (⟨0, 0, []⟩, ⟨1, 1, 0⟩) ∧
    bt_train_step ["en-de"] ⟨0, 0, 0⟩ [("bt:en-de", .tuple PyVal.none PyVal.none)] false =
      .error .keyError :=
  ⟨C9_pair_skipping.2.2.1 [("en-de", .batch 2 5 2 "l")] false ["en-de", "en-fr"]
      (by
        intro k v hkv
        have h1 : List.lookup k [("en-de", PyVal.batch 2 5 2 "l")] =
            match k == "en-de" with
            | true => some (PyVal.batch 2 5 2 "l")
            | false => none := rfl
        rw [h1] at hkv
        cases hbe : (k == "en-de") with
        | true =>
            rw [hbe] at hkv
            exact Or.inr ⟨2, 5, 2, "l", (Option.some.inj hkv).symm⟩
        | false =>
            rw [hbe] at hkv
            cases hkv),
   C9_pair_skipping.2.2.2.1 [("en-de", PyVal.none), ("bt:en-de", .tuple PyVal.none PyVal.none)]
      ⟨0, 0, 0⟩ false ["en-de"]
      (by
        intro lp hlp
        rcases List.mem_singleton.mp hlp with h
        subst h
        exact ⟨PyVal.none, by decide, by decide⟩)
      (by
        intro lp hlp
        rcases List.mem_singleton.mp hlp with h
        subst h
        exact ⟨PyVal.none, PyVal.none, by decide, by decide⟩),
   C9_pair_skipping.2.2.2.2 [("bt:en-de", .tuple PyVal.none PyVal.none)] ⟨0, 0, 0⟩ false
      "en-de" [] (by decide)⟩
